import Mathlib

/-!
Verification development for the btc-trader portfolio allocation /
capital-control engine.

The allocation engine (Valuation Model, Target & Band Registry, Allocation
Gate, Position Sizer, Concurrency Guard, Decision Logger) is specified in
ALLOCATION-GUIDE.md and the system spec; the repository ships it as a design
contract rather than as code, so those components are modelled here directly
from the spec's words.  The parts that do exist as code
(`getAllAssets` / `getAssetsBySymbols` in src/config/assets.ts and
`hydrateMultiAssetState` in src/config/state.ts) are embedded from the source.

Money amounts and weights are modelled as exact rationals.
-/

namespace BtcTrader

/-- Modelled from the spec: one AssetTarget record of the Target & Band
Registry (§3): symbol, target weight, band width, plus the per-asset enabled
flag of assets.ts that the gate's first condition consults. -/
structure AssetTarget where
  symbol : String
  targetWeight : ℚ
  bandWidth : ℚ
  enabled : Bool
  deriving Repr, DecidableEq

/-- Modelled from the spec: the band derived for one asset (§4.2). -/
structure Band where
  targetWeight : ℚ
  minWeight : ℚ
  maxWeight : ℚ
  deriving Repr, DecidableEq

/-- Modelled from the spec: one holding of the portfolio snapshot (§3). -/
structure Holding where
  quantity : ℚ
  markPrice : ℚ
  deriving Repr, DecidableEq

/-- Modelled from the spec: a PortfolioSnapshot (§3): idle cash plus a
holdings map, here an association list keyed by symbol. -/
structure PortfolioSnapshot where
  idleCashUsdc : ℚ
  holdings : List (String × Holding)
  timestampMs : ℕ
  deriving Repr, DecidableEq

/-- Modelled from the spec: a BuyRequest (§3). -/
structure BuyRequest where
  assetSymbol : String
  botId : String
  requestedUsdc : ℚ
  signalTimestampMs : ℕ
  deriving Repr, DecidableEq

/-- Modelled from the spec: BotCapConfig (§3) — `maxDeployedUsdc` OR
`maxPortfolioPct`, mutually exclusive, so an inductive with one constructor
per form. -/
inductive BotCapConfig where
  | maxDeployedUsdc (cap : ℚ)
  | maxPortfolioPct (pct : ℚ)
  deriving Repr, DecidableEq

/-- Modelled from the spec: decision reasons (§7). -/
inductive Reason where
  | ALLOWED
  | BLOCKED_ASSET_DISABLED
  | BLOCKED_OVER_BAND
  | BLOCKED_RESERVE
  | BLOCKED_BOT_CAP
  | BLOCKED_BELOW_MIN_SIZE
  | BLOCKED_CONCURRENT_UPDATE
  deriving Repr, DecidableEq

/-- Modelled from the spec: the true error conditions (§7), raised to the
caller rather than returned as a decision. -/
inductive AllocError where
  | InvalidSnapshot
  | UnknownAsset
  deriving Repr, DecidableEq

/-- Modelled from the spec: a GateDecision (§3). -/
structure GateDecision where
  allowed : Bool
  approvedUsdc : ℚ
  reason : Reason
  currentWeight : ℚ
  targetWeight : ℚ
  maxWeight : ℚ
  headroomUsdc : ℚ
  deriving Repr, DecidableEq

/-- Modelled from the spec: the Valuation Model (§4.1).
`totalValueUsdc = idleCashUsdc + Σ(holding.quantity × holding.markPrice)`
over all holdings; fails with `InvalidSnapshot` if any `markPrice < 0` or
`quantity < 0`. -/
def computeTotalValue (snap : PortfolioSnapshot) : Except AllocError ℚ :=
  if snap.holdings.any (fun e => decide (e.2.markPrice < 0) || decide (e.2.quantity < 0)) then
    .error .InvalidSnapshot
  else
    .ok (snap.idleCashUsdc + (snap.holdings.map (fun e => e.2.quantity * e.2.markPrice)).sum)

/-- Modelled from the spec: registry lookup — the `UnknownAsset`-raising
lookup underlying `getBand` (§4.2). -/
def lookupAsset (reg : List AssetTarget) (symbol : String) : Except AllocError AssetTarget :=
  match reg.find? (fun a => a.symbol == symbol) with
  | none => .error .UnknownAsset
  | some a => .ok a

/-- Modelled from the spec: the max weight of an asset (§4.2). -/
def maxWeightOf (a : AssetTarget) : ℚ :=
  a.targetWeight + a.bandWidth

/-- Modelled from the spec: `getBand(symbol)` (§4.2), with
`minWeight = max(0, targetWeight − bandWidth)` and
`maxWeight = targetWeight + bandWidth`; fails with `UnknownAsset` when the
symbol is not registered. -/
def getBand (reg : List AssetTarget) (symbol : String) : Except AllocError Band :=
  match lookupAsset reg symbol with
  | .error e => .error e
  | .ok a => .ok ⟨a.targetWeight, max 0 (a.targetWeight - a.bandWidth), maxWeightOf a⟩

/-- Modelled from the spec: the mark-to-market value of the snapshot's
holding for one symbol (first entry of the association list; 0 when the
symbol has no holding). -/
def holdingValueOf (snap : PortfolioSnapshot) (symbol : String) : ℚ :=
  match snap.holdings.find? (fun e => e.1 == symbol) with
  | none => 0
  | some e => e.2.quantity * e.2.markPrice

/-- Modelled from the spec: the Position Sizer's headroom (§4.4):
`headroomUsdc = max(0, maxWeight × totalValue − currentHoldingValue)`. -/
def headroomUsdc (maxWeight totalValue currentHoldingValue : ℚ) : ℚ :=
  max 0 (maxWeight * totalValue - currentHoldingValue)

/-- Modelled from the spec: the Position Sizer's raw amount (§4.4):
`min(request.requestedUsdc, headroomUsdc, availableCash)`. -/
def sizeOrderRaw (requestedUsdc headroom availableCash : ℚ) : ℚ :=
  min requestedUsdc (min headroom availableCash)

/-- Modelled from the spec: the Position Sizer `sizeOrder` (§4.4): the raw
minimum, except that an amount below the platform's minimum tradable
notional becomes 0 (which the gate reports as `BLOCKED_BELOW_MIN_SIZE`). -/
def sizeOrder (requestedUsdc headroom availableCash minNotional : ℚ) : ℚ :=
  if sizeOrderRaw requestedUsdc headroom availableCash < minNotional then 0
  else sizeOrderRaw requestedUsdc headroom availableCash

/-- Modelled from the spec: the bot-cap condition (§4.3 step 4):
`botDeployedUsdc(botId) + requestedUsdc` must not exceed the cap (absolute
or portfolio-percent form); `true` means the cap is exceeded. -/
def botCapExceeded : Option BotCapConfig → ℚ → ℚ → ℚ → Bool
  | none, _, _, _ => false
  | some (.maxDeployedUsdc cap), deployed, requested, _ => decide (cap < deployed + requested)
  | some (.maxPortfolioPct pct), deployed, requested, totalValue =>
      decide (pct * totalValue < deployed + requested)

/-- Modelled from the spec: a blocked GateDecision (`allowed=false`,
`approvedUsdc=0`) carrying the weight/headroom context (§3, §4.3). -/
def mkBlocked (r : Reason) (cw tw mw hr : ℚ) : GateDecision :=
  { allowed := false, approvedUsdc := 0, reason := r,
    currentWeight := cw, targetWeight := tw, maxWeight := mw, headroomUsdc := hr }

/-- Modelled from the spec: the decision part of the Allocation Gate (§4.3
with the sizing delegation of §4.4), once the registry lookup has produced
the asset record `a` and the Valuation Model the total value `tv`.  The four
gating conditions are checked in order (enabled, weight strictly under max
band, available cash strictly over the safety reserve, bot cap),
short-circuiting on the first failure; on success the sized amount is
checked against the platform minimum tradable notional
(`BLOCKED_BELOW_MIN_SIZE`). -/
def evalCore (a : AssetTarget) (tv : ℚ) (req : BuyRequest) (snap : PortfolioSnapshot)
    (botCap : Option BotCapConfig) (botDeployedUsdc : ℚ)
    (safetyReserveUsdc : ℚ) (minNotional : ℚ) : GateDecision :=
  let hv := holdingValueOf snap req.assetSymbol
  let cw := hv / tv
  let mw := maxWeightOf a
  let hr := headroomUsdc mw tv hv
  if !a.enabled then mkBlocked .BLOCKED_ASSET_DISABLED cw a.targetWeight mw hr
  else if mw ≤ cw then mkBlocked .BLOCKED_OVER_BAND cw a.targetWeight mw hr
  else
    let availableCash := snap.idleCashUsdc - safetyReserveUsdc
    if availableCash ≤ 0 then mkBlocked .BLOCKED_RESERVE cw a.targetWeight mw hr
    else if botCapExceeded botCap botDeployedUsdc req.requestedUsdc tv then
      mkBlocked .BLOCKED_BOT_CAP cw a.targetWeight mw hr
    else
      let approved := sizeOrderRaw req.requestedUsdc hr availableCash
      if approved < minNotional then
        mkBlocked .BLOCKED_BELOW_MIN_SIZE cw a.targetWeight mw hr
      else
        { allowed := true, approvedUsdc := approved, reason := .ALLOWED,
          currentWeight := cw, targetWeight := a.targetWeight,
          maxWeight := mw, headroomUsdc := hr }

/-- Modelled from the spec: the Allocation Gate `evaluate` (§4.3).  The
registry lookup raises `UnknownAsset` and the valuation raises
`InvalidSnapshot` to the caller — these are true errors, never returned as
a decision; otherwise the gating conditions of `evalCore` decide. -/
def evaluate (reg : List AssetTarget) (req : BuyRequest) (snap : PortfolioSnapshot)
    (botCap : Option BotCapConfig) (botDeployedUsdc : ℚ)
    (safetyReserveUsdc : ℚ) (minNotional : ℚ) : Except AllocError GateDecision :=
  match lookupAsset reg req.assetSymbol with
  | .error e => .error e
  | .ok a =>
    match computeTotalValue snap with
    | .error e => .error e
    | .ok totalValue =>
      .ok (evalCore a totalValue req snap botCap botDeployedUsdc safetyReserveUsdc minNotional)

/-- Modelled from the spec: credit a bought USDC amount to the first
holdings entry of a symbol, converting it to quantity at the entry's mark
price; entries of other symbols are untouched. -/
def creditHolding : List (String × Holding) → String → ℚ → List (String × Holding)
  | [], _, _ => []
  | e :: rest, symbol, usdc =>
    if e.1 == symbol then
      (e.1, { e.2 with quantity := e.2.quantity + usdc / e.2.markPrice }) :: rest
    else
      e :: creditHolding rest symbol usdc

/-- Modelled from the spec: applying an approved buy to the snapshot inside
the critical section (§4.5, §5): the approved USDC leaves idle cash and
buys quantity `approvedUsdc / markPrice` of the asset at its mark price. -/
def commitBuy (snap : PortfolioSnapshot) (symbol : String) (usdc : ℚ) : PortfolioSnapshot :=
  { snap with
    idleCashUsdc := snap.idleCashUsdc - usdc,
    holdings := creditHolding snap.holdings symbol usdc }

/-- Modelled from the spec: the state carried through a serialized batch of
decisions (§4.5, §5): the shared snapshot, the per-bot deployed-capital
counters, and the decisions produced so far. -/
structure BatchState where
  snap : PortfolioSnapshot
  deployed : String → ℚ
  decisions : List GateDecision

/-- Modelled from the spec: the Concurrency Guard's serialized
read-decide-commit processing of a batch of requests (§4.5, §5): requests
are resolved one at a time in acquisition order, each evaluated against the
previous commits' state; an allowed decision commits its approved amount
and updates the bot's deployed counter; a true error (`UnknownAsset`,
`InvalidSnapshot`) is raised to the caller, who skips that asset for the
cycle (§7), so it records no decision. -/
def processBatch (reg : List AssetTarget) (capOf : String → Option BotCapConfig)
    (safetyReserveUsdc minNotional : ℚ) :
    PortfolioSnapshot → (String → ℚ) → List BuyRequest → BatchState
  | snap, dep, [] => ⟨snap, dep, []⟩
  | snap, dep, req :: rest =>
    match evaluate reg req snap (capOf req.botId) (dep req.botId) safetyReserveUsdc minNotional with
    | .error _ => processBatch reg capOf safetyReserveUsdc minNotional snap dep rest
    | .ok d =>
      if d.allowed then
        let snap' := commitBuy snap req.assetSymbol d.approvedUsdc
        let dep' := fun b => if b == req.botId then dep b + d.approvedUsdc else dep b
        let st := processBatch reg capOf safetyReserveUsdc minNotional snap' dep' rest
        ⟨st.snap, st.deployed, d :: st.decisions⟩
      else
        let st := processBatch reg capOf safetyReserveUsdc minNotional snap dep rest
        ⟨st.snap, st.deployed, d :: st.decisions⟩

/-- Modelled from the spec: the sum of the approved amounts of the allowed
decisions of a batch (§8, no-overspend invariant). -/
def allowedSum (ds : List GateDecision) : ℚ :=
  ((ds.filter (fun d => d.allowed)).map (fun d => d.approvedUsdc)).sum

/-- Modelled from the spec: one record of the Decision Logger (§4.6): the
decision together with the request, i.e. the full context (bot, asset,
signal, weights, headroom, decision and reason). -/
structure LogEntry where
  decision : GateDecision
  request : BuyRequest

/-- Modelled from the spec: `record(decision, request)` (§4.6): append-only;
a logging failure (the `ok` flag is false) is swallowed — the log is simply
not extended — and never propagates into the trading path. -/
def record (ok : Bool) (log : List LogEntry) (d : GateDecision) (req : BuyRequest) :
    List LogEntry :=
  if ok then log ++ [⟨d, req⟩] else log

/-- Modelled from the spec: serialized batch processing with the Decision
Logger attached (§4.6): every decision, allowed or blocked, is passed to
`record`; `logOk n` tells whether the n-th logging call succeeds; logging
outcomes never feed back into the decisions or the committed state. -/
def processBatchLogged (reg : List AssetTarget) (capOf : String → Option BotCapConfig)
    (safetyReserveUsdc minNotional : ℚ) (logOk : ℕ → Bool) :
    PortfolioSnapshot → (String → ℚ) → ℕ → List LogEntry → List BuyRequest →
    BatchState × List LogEntry
  | snap, dep, _, log, [] => (⟨snap, dep, []⟩, log)
  | snap, dep, n, log, req :: rest =>
    match evaluate reg req snap (capOf req.botId) (dep req.botId) safetyReserveUsdc minNotional with
    | .error _ => processBatchLogged reg capOf safetyReserveUsdc minNotional logOk snap dep n log rest
    | .ok d =>
      let log' := record (logOk n) log d req
      if d.allowed then
        let snap' := commitBuy snap req.assetSymbol d.approvedUsdc
        let dep' := fun b => if b == req.botId then dep b + d.approvedUsdc else dep b
        let r := processBatchLogged reg capOf safetyReserveUsdc minNotional logOk snap' dep' (n + 1) log' rest
        (⟨r.1.snap, r.1.deployed, d :: r.1.decisions⟩, r.2)
      else
        let r := processBatchLogged reg capOf safetyReserveUsdc minNotional logOk snap dep (n + 1) log' rest
        (⟨r.1.snap, r.1.deployed, d :: r.1.decisions⟩, r.2)

/-! Code-embedded part: src/config/assets.ts.  `AssetConfig` is the
platform's asset record; only the fields the embedded functions touch are
kept, the rest is an opaque payload. -/

/-- One asset record produced by `getAllAssets` (src/config/assets.ts):
symbol plus the enabled flag that is always set to `true` there ("All
assets enabled by default; filtering happens via bots.json"). -/
structure AssetConfig where
  symbol : String
  name : String
  binanceSymbol : String
  tradeLegUsdc : ℚ
  enabled : Bool
  deriving Repr, DecidableEq

/-- Embedded from src/config/assets.ts `getAssetsBySymbols`: filter the
loaded assets to those whose upper-cased symbol is in the upper-cased
requested set. -/
def getAssetsBySymbols (all : List AssetConfig) (symbols : List String) : List AssetConfig :=
  all.filter (fun asset => (symbols.map (fun s => s.toUpper)).contains asset.symbol.toUpper)

/-! Code-embedded part: src/config/state.ts `hydrateMultiAssetState`.  The
platform types `MultiAssetBotState` and the per-asset position objects are
kept abstract: a position is its `asset` key plus an opaque payload, a
state is its `assetPositions` array plus its remaining top-level fields,
modelled as a key-to-value map. -/

/-- One element of an `assetPositions` array: the `asset` symbol the code
keys on, plus the rest of the object. -/
structure AssetPosition (α : Type) where
  asset : String
  payload : α
  deriving Repr, DecidableEq

/-- A `MultiAssetBotState` with extras: the `assetPositions` array plus all
other top-level fields as a partial map from field name to value. -/
structure MultiAssetState (α β : Type) where
  assetPositions : List (AssetPosition α)
  fields : String → Option β

/-- The persisted state object passed to `hydrateMultiAssetState`: its
`assetPositions` is `none` when the field is missing or not an array
(the code's `Array.isArray` check), and its other top-level fields are a
partial map. -/
structure PersistedState (α β : Type) where
  assetPositions : Option (List (AssetPosition α))
  fields : String → Option β

/-- JavaScript `new Map(entries).get(k)`: the value of the last entry with
key `k`, since later entries overwrite earlier ones. -/
def jsMapGet (ps : List (AssetPosition α)) (k : String) : Option (AssetPosition α) :=
  ps.reverse.find? (fun p => p.asset == k)

/-- Embedded from src/config/state.ts `hydrateMultiAssetState`: build the
fresh state from the asset list, key the persisted positions by `asset`,
replace each fresh position by the persisted one when present, and spread
`{...fresh, ...state, assetPositions: mergedPositions}` — so every other
top-level field present in the persisted state overrides the fresh one.
`init` stands for the platform's `initializeMultiAssetState`, which is not
part of this repository. -/
def hydrateMultiAssetState (init : List AssetConfig → MultiAssetState α β)
    (assets : List AssetConfig) (state : PersistedState α β) : MultiAssetState α β :=
  let fresh := init assets
  let existingPositions := state.assetPositions.getD []
  let mergedPositions := fresh.assetPositions.map
    (fun pos => (jsMapGet existingPositions pos.asset).getD pos)
  { assetPositions := mergedPositions,
    fields := fun k =>
      match state.fields k with
      | some v => some v
      | none => fresh.fields k }

/-! Derived quantities and concrete fixture data used by the theorems. -/

/-- The raw mark-to-market sum of a holdings list. -/
def totalRaw (hs : List (String × Holding)) : ℚ :=
  (hs.map (fun e => e.2.quantity * e.2.markPrice)).sum

/-- The total portfolio value as a total function (what `computeTotalValue`
returns on a valid snapshot). -/
def totalValueRaw (snap : PortfolioSnapshot) : ℚ :=
  snap.idleCashUsdc + totalRaw snap.holdings

/-- The snapshot and request validity used by the batch invariants: every
holding has nonnegative quantity and mark price. -/
def ValidHoldings (hs : List (String × Holding)) : Prop :=
  ∀ e ∈ hs, 0 ≤ e.2.quantity ∧ 0 ≤ e.2.markPrice

/-- Requests are well-posed against a snapshot: nonnegative size and the
asset has a priced holdings entry. -/
def ReqsOk (reqs : List BuyRequest) (snap : PortfolioSnapshot) : Prop :=
  ∀ r ∈ reqs, 0 ≤ r.requestedUsdc ∧
    ∃ e, snap.holdings.find? (fun x => x.1 == r.assetSymbol) = some e ∧ 0 < e.2.markPrice

/-- The registry of the spec's worked scenarios: BTC with
`targetWeight = 0.40`, `band = 0.05`, enabled. -/
def demoRegistry : List AssetTarget :=
  [{ symbol := "BTC", targetWeight := 2/5, bandWidth := 1/20, enabled := true }]

/-- Scenario 2's snapshot: total value $10,000 of which $4,000 is the BTC
holding (one unit marked at $4,000) and $6,000 idle cash. -/
def scenario2Snap : PortfolioSnapshot :=
  { idleCashUsdc := 6000, holdings := [("BTC", { quantity := 1, markPrice := 4000 })], timestampMs := 0 }

/-- Scenario 2's request: a $200 buy of BTC. -/
def scenario2Req : BuyRequest :=
  { assetSymbol := "BTC", botId := "bot1", requestedUsdc := 200, signalTimestampMs := 0 }

/-- Scenario 1's snapshot as the claim states it: total value $10,000 with a
$4,400 BTC holding (current weight 0.44). -/
def scenario1Snap : PortfolioSnapshot :=
  { idleCashUsdc := 5600, holdings := [("BTC", { quantity := 1, markPrice := 4400 })], timestampMs := 0 }

/-- Scenario 1's snapshot with the holding at $4,500, where the current
weight really equals the max weight 0.45. -/
def scenario1AtMaxSnap : PortfolioSnapshot :=
  { idleCashUsdc := 5500, holdings := [("BTC", { quantity := 1, markPrice := 4500 })], timestampMs := 0 }

/-- A $50 BTC buy request used in the scenario-1 instances. -/
def scenario1Req : BuyRequest :=
  { assetSymbol := "BTC", botId := "bot1", requestedUsdc := 50, signalTimestampMs := 0 }

/-- A snapshot with `idleCashUsdc − safetyReserve = 80 − 50 = 30 > 0`
(the claim's literal "availableCash = $30") and BTC far under band. -/
def reserveOkSnap : PortfolioSnapshot :=
  { idleCashUsdc := 80, holdings := [("BTC", { quantity := 1, markPrice := 10 })], timestampMs := 0 }

/-- A snapshot with idle cash $30 (below the $50 reserve) and BTC far over
band. -/
def reserveShortOverBandSnap : PortfolioSnapshot :=
  { idleCashUsdc := 30, holdings := [("BTC", { quantity := 1, markPrice := 4600 })], timestampMs := 0 }

/-- A snapshot with idle cash $30 (below the $50 reserve) and BTC far under
band. -/
def reserveShortSnap : PortfolioSnapshot :=
  { idleCashUsdc := 30, holdings := [("BTC", { quantity := 1, markPrice := 10 })], timestampMs := 0 }

/-- A $20 BTC buy request used in the reserve instances. -/
def smallReq : BuyRequest :=
  { assetSymbol := "BTC", botId := "bot1", requestedUsdc := 20, signalTimestampMs := 0 }

/-- A $5 BTC buy request, below the $10 minimum notional of the fixtures. -/
def dustReq : BuyRequest :=
  { assetSymbol := "BTC", botId := "bot1", requestedUsdc := 5, signalTimestampMs := 0 }

/-- Scenario 4's two headroom-filling $500 requests from two bots. -/
def headroomReqA : BuyRequest :=
  { assetSymbol := "BTC", botId := "bot1", requestedUsdc := 500, signalTimestampMs := 0 }

/-- The second of scenario 4's two simultaneous $500 requests. -/
def headroomReqB : BuyRequest :=
  { assetSymbol := "BTC", botId := "bot2", requestedUsdc := 500, signalTimestampMs := 0 }

/-- A tiny concrete fresh-state initializer used to instantiate the
`hydrateMultiAssetState` theorem: one zero-payload position per asset, and
one default top-level field. -/
def demoInit (assets : List AssetConfig) : MultiAssetState ℕ ℕ :=
  { assetPositions := assets.map (fun a => { asset := a.symbol, payload := 0 }),
    fields := fun k => if k == "lastProcessedCandleTime" then some 0 else none }

/-- A concrete persisted state for the `hydrateMultiAssetState` fixtures: a
stale position for BTC, a position for a dropped symbol, and one persisted
top-level field. -/
def demoPersisted : PersistedState ℕ ℕ :=
  { assetPositions := some [{ asset := "BTC", payload := 7 }, { asset := "DOGE", payload := 9 }],
    fields := fun k => if k == "lastProcessedCandleTime" then some 42 else none }

/-- Two concrete asset records for the `hydrateMultiAssetState` fixtures. -/
def demoAssets : List AssetConfig :=
  [{ symbol := "BTC", name := "Bitcoin", binanceSymbol := "BTCUSDT", tradeLegUsdc := 50, enabled := true },
   { symbol := "SOL", name := "Solana", binanceSymbol := "SOLUSDT", tradeLegUsdc := 50, enabled := true }]

/-! Helper lemmas about the gate. -/

/-- Full branch characterization of the gate's decision part: which reason
comes out of which combination of the ordered, short-circuiting conditions,
and what the approved amount and the context fields are. -/
lemma gate_blocked_approved_zero (a : AssetTarget) (tv : ℚ) (req : BuyRequest)
    (snap : PortfolioSnapshot) (cap : Option BotCapConfig) (dep res minN : ℚ) :
    (evalCore a tv req snap cap dep res minN).allowed = false →
      (evalCore a tv req snap cap dep res minN).approvedUsdc = 0 := by
  simp only [evalCore]
  split_ifs <;> simp [mkBlocked]

/-- The context fields of every decision the gate produces. -/
lemma gate_fields (a : AssetTarget) (tv : ℚ) (req : BuyRequest) (snap : PortfolioSnapshot)
    (cap : Option BotCapConfig) (dep res minN : ℚ) :
    (evalCore a tv req snap cap dep res minN).currentWeight
        = holdingValueOf snap req.assetSymbol / tv ∧
      (evalCore a tv req snap cap dep res minN).targetWeight = a.targetWeight ∧
      (evalCore a tv req snap cap dep res minN).maxWeight = maxWeightOf a ∧
      (evalCore a tv req snap cap dep res minN).headroomUsdc
        = headroomUsdc (maxWeightOf a) tv (holdingValueOf snap req.assetSymbol) := by
  simp only [evalCore]
  split_ifs <;> simp [mkBlocked]

/-- The gate allows exactly when all four ordered conditions pass and the
sized amount is at least the minimum notional. -/
lemma gate_allowed_iff (a : AssetTarget) (tv : ℚ) (req : BuyRequest) (snap : PortfolioSnapshot)
    (cap : Option BotCapConfig) (dep res minN : ℚ) :
    (evalCore a tv req snap cap dep res minN).allowed = true ↔
      a.enabled = true ∧
      holdingValueOf snap req.assetSymbol / tv < maxWeightOf a ∧
      0 < snap.idleCashUsdc - res ∧
      botCapExceeded cap dep req.requestedUsdc tv = false ∧
      minN ≤ sizeOrderRaw req.requestedUsdc
        (headroomUsdc (maxWeightOf a) tv (holdingValueOf snap req.assetSymbol))
        (snap.idleCashUsdc - res) := by
  simp only [evalCore]
  split_ifs with h1 h2 h3 h4 h5 <;>
    simp_all [mkBlocked, not_le, not_lt, sub_pos, sub_nonpos, Bool.not_eq_true]

/-- An allowed decision's approved amount is the sizer's raw minimum. -/
lemma gate_allowed_approved (a : AssetTarget) (tv : ℚ) (req : BuyRequest)
    (snap : PortfolioSnapshot) (cap : Option BotCapConfig) (dep res minN : ℚ) :
    (evalCore a tv req snap cap dep res minN).allowed = true →
      (evalCore a tv req snap cap dep res minN).approvedUsdc
        = sizeOrderRaw req.requestedUsdc
            (headroomUsdc (maxWeightOf a) tv (holdingValueOf snap req.assetSymbol))
            (snap.idleCashUsdc - res) := by
  simp only [evalCore]
  split_ifs <;> simp [mkBlocked]

/-- Reason characterization: disabled asset. -/
lemma gate_reason_disabled_iff (a : AssetTarget) (tv : ℚ) (req : BuyRequest)
    (snap : PortfolioSnapshot) (cap : Option BotCapConfig) (dep res minN : ℚ) :
    (evalCore a tv req snap cap dep res minN).reason = Reason.BLOCKED_ASSET_DISABLED ↔
      a.enabled = false := by
  simp only [evalCore]
  split_ifs <;> simp_all [mkBlocked, Bool.not_eq_true]

/-- Reason characterization: over band — first condition passed, second
failed. -/
lemma gate_reason_over_band_iff (a : AssetTarget) (tv : ℚ) (req : BuyRequest)
    (snap : PortfolioSnapshot) (cap : Option BotCapConfig) (dep res minN : ℚ) :
    (evalCore a tv req snap cap dep res minN).reason = Reason.BLOCKED_OVER_BAND ↔
      a.enabled = true ∧ maxWeightOf a ≤ holdingValueOf snap req.assetSymbol / tv := by
  simp only [evalCore]
  split_ifs <;> simp_all [mkBlocked, Bool.not_eq_true]

/-- Reason characterization: reserve — first two conditions passed, third
failed. -/
lemma gate_reason_reserve_iff (a : AssetTarget) (tv : ℚ) (req : BuyRequest)
    (snap : PortfolioSnapshot) (cap : Option BotCapConfig) (dep res minN : ℚ) :
    (evalCore a tv req snap cap dep res minN).reason = Reason.BLOCKED_RESERVE ↔
      a.enabled = true ∧ holdingValueOf snap req.assetSymbol / tv < maxWeightOf a ∧
      snap.idleCashUsdc - res ≤ 0 := by
  simp only [evalCore]
  split_ifs <;> simp_all [mkBlocked, Bool.not_eq_true, not_le, sub_nonpos, sub_pos]

/-- Reason characterization: bot cap — first three conditions passed,
fourth failed. -/
lemma gate_reason_bot_cap_iff (a : AssetTarget) (tv : ℚ) (req : BuyRequest)
    (snap : PortfolioSnapshot) (cap : Option BotCapConfig) (dep res minN : ℚ) :
    (evalCore a tv req snap cap dep res minN).reason = Reason.BLOCKED_BOT_CAP ↔
      a.enabled = true ∧ holdingValueOf snap req.assetSymbol / tv < maxWeightOf a ∧
      0 < snap.idleCashUsdc - res ∧
      botCapExceeded cap dep req.requestedUsdc tv = true := by
  simp only [evalCore]
  split_ifs <;> simp_all [mkBlocked, Bool.not_eq_true, not_le, sub_nonpos, sub_pos]

/-- Reason characterization: below minimum size — all four conditions
passed, the sized amount is under the minimum notional. -/
lemma gate_reason_below_min_iff (a : AssetTarget) (tv : ℚ) (req : BuyRequest)
    (snap : PortfolioSnapshot) (cap : Option BotCapConfig) (dep res minN : ℚ) :
    (evalCore a tv req snap cap dep res minN).reason = Reason.BLOCKED_BELOW_MIN_SIZE ↔
      a.enabled = true ∧ holdingValueOf snap req.assetSymbol / tv < maxWeightOf a ∧
      0 < snap.idleCashUsdc - res ∧
      botCapExceeded cap dep req.requestedUsdc tv = false ∧
      sizeOrderRaw req.requestedUsdc
          (headroomUsdc (maxWeightOf a) tv (holdingValueOf snap req.assetSymbol))
          (snap.idleCashUsdc - res) < minN := by
  simp only [evalCore]
  split_ifs <;> simp_all [mkBlocked, Bool.not_eq_true, not_le, sub_nonpos, sub_pos]

/-- A decision carries reason `ALLOWED` exactly when it is allowed. -/
lemma gate_reason_allowed_iff (a : AssetTarget) (tv : ℚ) (req : BuyRequest)
    (snap : PortfolioSnapshot) (cap : Option BotCapConfig) (dep res minN : ℚ) :
    ((evalCore a tv req snap cap dep res minN).reason = Reason.ALLOWED ↔
      (evalCore a tv req snap cap dep res minN).allowed = true) := by
  simp only [evalCore]
  split_ifs <;> simp [mkBlocked]

/-! Helper lemmas about the Valuation Model and the registry lookup. -/

/-- On a snapshot whose holdings are all nonnegative, the Valuation Model
returns idle cash plus the mark-to-market sum. -/
lemma computeTotalValue_ok_of_valid (snap : PortfolioSnapshot)
    (h : ValidHoldings snap.holdings) :
    computeTotalValue snap = .ok (totalValueRaw snap) := by
  have hfalse : (snap.holdings.any fun e =>
      decide (e.2.markPrice < 0) || decide (e.2.quantity < 0)) = false := by
    simp only [List.any_eq_false]
    intro e he
    rcases h e he with ⟨hq, hp⟩
    simp [not_lt.mpr hq, not_lt.mpr hp]
  unfold computeTotalValue
  simp [hfalse, totalValueRaw, totalRaw]

/-- The Valuation Model fails with `InvalidSnapshot` exactly when some
holding has a negative mark price or a negative quantity. -/
lemma computeTotalValue_error_iff (snap : PortfolioSnapshot) :
    computeTotalValue snap = .error .InvalidSnapshot ↔
      ∃ e ∈ snap.holdings, e.2.markPrice < 0 ∨ e.2.quantity < 0 := by
  unfold computeTotalValue
  split_ifs with h
  · simp only [List.any_eq_true, Bool.or_eq_true, decide_eq_true_eq] at h
    simpa using h
  · simp only [List.any_eq_true, Bool.or_eq_true, decide_eq_true_eq] at h
    simpa using h

/-- Inversion: a successful valuation means all holdings are nonnegative
and the value is the raw total. -/
lemma computeTotalValue_ok_inv (snap : PortfolioSnapshot) (tv : ℚ)
    (h : computeTotalValue snap = .ok tv) :
    ValidHoldings snap.holdings ∧ tv = totalValueRaw snap := by
  unfold computeTotalValue at h
  by_cases hc : (snap.holdings.any fun e =>
      decide (e.2.markPrice < 0) || decide (e.2.quantity < 0)) = true
  · rw [if_pos hc] at h
    cases h
  · rw [if_neg hc] at h
    injection h with h'
    subst h'
    simp only [List.any_eq_true, Bool.or_eq_true, decide_eq_true_eq] at hc
    push_neg at hc
    constructor
    · intro e he
      exact ⟨(hc e he).2, (hc e he).1⟩
    · rfl

/-- A symbol registered by no asset makes the lookup raise `UnknownAsset`. -/
lemma lookupAsset_error_of_not_mem (reg : List AssetTarget) (sym : String)
    (h : ∀ a ∈ reg, a.symbol ≠ sym) :
    lookupAsset reg sym = .error .UnknownAsset := by
  unfold lookupAsset
  rw [List.find?_eq_none.mpr]
  intro a ha
  simpa using h a ha

/-- Inversion: a successful lookup returns a registered record of the
requested symbol. -/
lemma lookupAsset_ok_inv (reg : List AssetTarget) (sym : String) (a : AssetTarget)
    (h : lookupAsset reg sym = .ok a) : a ∈ reg ∧ a.symbol = sym := by
  unfold lookupAsset at h
  cases hf : reg.find? (fun x => x.symbol == sym) with
  | none => rw [hf] at h; cases h
  | some b =>
    rw [hf] at h
    injection h with h'
    subst h'
    exact ⟨List.mem_of_find?_eq_some hf, by simpa using List.find?_some hf⟩

/-- Unfolding `evaluate` on the success path. -/
lemma evaluate_ok (reg : List AssetTarget) (req : BuyRequest) (snap : PortfolioSnapshot)
    (cap : Option BotCapConfig) (dep res minN : ℚ) (a : AssetTarget) (tv : ℚ)
    (h1 : lookupAsset reg req.assetSymbol = .ok a)
    (h2 : computeTotalValue snap = .ok tv) :
    evaluate reg req snap cap dep res minN = .ok (evalCore a tv req snap cap dep res minN) := by
  unfold evaluate
  rw [h1, h2]

/-- Inversion of `evaluate` on the success path. -/
lemma evaluate_ok_inv (reg : List AssetTarget) (req : BuyRequest) (snap : PortfolioSnapshot)
    (cap : Option BotCapConfig) (dep res minN : ℚ) (d : GateDecision)
    (h : evaluate reg req snap cap dep res minN = .ok d) :
    ∃ a tv, lookupAsset reg req.assetSymbol = .ok a ∧ computeTotalValue snap = .ok tv ∧
      d = evalCore a tv req snap cap dep res minN := by
  unfold evaluate at h
  cases h1 : lookupAsset reg req.assetSymbol with
  | error e => rw [h1] at h; cases h
  | ok a =>
    rw [h1] at h
    cases h2 : computeTotalValue snap with
    | error e => rw [h2] at h; cases h
    | ok tv =>
      rw [h2] at h
      injection h with h'
      exact ⟨a, tv, rfl, rfl, h'.symm⟩

/-! Helper lemmas about committing a buy. -/

/-- Crediting a holding preserves the symbols and mark prices of the list. -/
lemma creditHolding_shape (hs : List (String × Holding)) (sym : String) (u : ℚ) :
    (creditHolding hs sym u).map (fun e => (e.1, e.2.markPrice))
      = hs.map (fun e => (e.1, e.2.markPrice)) := by
  induction hs with
  | nil => rfl
  | cons e rest ih =>
    unfold creditHolding
    split_ifs with h <;> simp [ih]

/-- The credited entry as seen by a lookup of the credited symbol. -/
lemma creditHolding_find?_self (hs : List (String × Holding)) (sym : String) (u : ℚ)
    (e0 : String × Holding) (h : hs.find? (fun x => x.1 == sym) = some e0) :
    (creditHolding hs sym u).find? (fun x => x.1 == sym)
      = some (e0.1, { e0.2 with quantity := e0.2.quantity + u / e0.2.markPrice }) := by
  induction hs with
  | nil => cases h
  | cons e rest ih =>
    by_cases hb : (e.1 == sym) = true
    · simp only [List.find?_cons, hb, if_true] at h
      injection h with h'
      subst h'
      unfold creditHolding
      rw [if_pos hb]
      simp [List.find?_cons, hb]
    · simp only [List.find?_cons, hb, if_false, Bool.false_eq_true] at h
      unfold creditHolding
      rw [if_neg hb]
      simp only [List.find?_cons, hb, if_false, Bool.false_eq_true]
      exact ih h

/-- Any symbol that resolves to an entry before a credit still resolves to
an entry with the same symbol and mark price afterwards. -/
lemma creditHolding_find?_exists (hs : List (String × Holding)) (sym : String) (u : ℚ)
    (k : String) (f : String × Holding) (h : hs.find? (fun x => x.1 == k) = some f) :
    ∃ f', (creditHolding hs sym u).find? (fun x => x.1 == k) = some f' ∧
      f'.1 = f.1 ∧ f'.2.markPrice = f.2.markPrice := by
  induction hs with
  | nil => cases h
  | cons e0 rest ih =>
    by_cases hs0 : (e0.1 == sym) = true
    · unfold creditHolding
      rw [if_pos hs0]
      by_cases hk : (e0.1 == k) = true
      · simp only [List.find?_cons, hk, if_true] at h
        have he : e0 = f := by injection h
        refine ⟨(e0.1, { e0.2 with quantity := e0.2.quantity + u / e0.2.markPrice }), ?_, ?_, ?_⟩
        · simp [List.find?_cons, hk]
        · rw [← he]
        · rw [← he]
      · simp only [List.find?_cons, hk, if_false, Bool.false_eq_true] at h
        refine ⟨f, ?_, rfl, rfl⟩
        simp only [List.find?_cons, hk, if_false, Bool.false_eq_true]
        exact h
    · unfold creditHolding
      rw [if_neg hs0]
      by_cases hk : (e0.1 == k) = true
      · simp only [List.find?_cons, hk, if_true] at h
        have he : e0 = f := by injection h
        refine ⟨e0, ?_, by rw [← he], by rw [← he]⟩
        simp [List.find?_cons, hk]
      · simp only [List.find?_cons, hk, if_false, Bool.false_eq_true] at h
        simp only [List.find?_cons, hk, if_false, Bool.false_eq_true]
        exact ih h

/-- Crediting `u` USDC into a priced entry raises the mark-to-market sum by
exactly `u`. -/
lemma totalRaw_creditHolding (hs : List (String × Holding)) (sym : String) (u : ℚ)
    (e0 : String × Holding) (h : hs.find? (fun x => x.1 == sym) = some e0)
    (hp : e0.2.markPrice ≠ 0) :
    totalRaw (creditHolding hs sym u) = totalRaw hs + u := by
  induction hs with
  | nil => cases h
  | cons e rest ih =>
    by_cases hb : (e.1 == sym) = true
    · simp only [List.find?_cons, hb, if_true] at h
      have he : e = e0 := by injection h
      have hp' : e.2.markPrice ≠ 0 := by rw [he]; exact hp
      unfold creditHolding totalRaw
      rw [if_pos hb]
      simp only [List.map_cons, List.sum_cons]
      have hq : (e.2.quantity + u / e.2.markPrice) * e.2.markPrice
          = e.2.quantity * e.2.markPrice + u := by
        field_simp
      rw [hq]
      ring
    · simp only [List.find?_cons, hb, if_false, Bool.false_eq_true] at h
      unfold creditHolding totalRaw
      rw [if_neg hb]
      simp only [List.map_cons, List.sum_cons]
      have hr := ih h
      unfold totalRaw at hr
      rw [hr]
      ring

/-- Crediting a nonnegative amount keeps all holdings nonnegative. -/
lemma ValidHoldings_credit (hs : List (String × Holding)) (sym : String) (u : ℚ)
    (hv : ValidHoldings hs) (hu : 0 ≤ u) : ValidHoldings (creditHolding hs sym u) := by
  induction hs with
  | nil => intro e he; cases he
  | cons e rest ih =>
    have hv0 := hv e (List.mem_cons_self e rest)
    have hvr : ValidHoldings rest := fun x hx => hv x (List.mem_cons_of_mem e hx)
    unfold creditHolding
    split_ifs with hb
    · intro x hx
      rcases List.mem_cons.mp hx with h' | h'
      · subst h'
        exact ⟨add_nonneg hv0.1 (div_nonneg hu hv0.2), hv0.2⟩
      · exact hvr x h'
    · intro x hx
      rcases List.mem_cons.mp hx with h' | h'
      · subst h'
        exact hv0
      · exact ih hvr x h'

/-- Committing a buy on a priced holding leaves the total portfolio value
unchanged: the cash leaving idle reappears as holding value. -/
lemma totalValueRaw_commitBuy (snap : PortfolioSnapshot) (sym : String) (u : ℚ)
    (e0 : String × Holding) (h : snap.holdings.find? (fun x => x.1 == sym) = some e0)
    (hp : e0.2.markPrice ≠ 0) :
    totalValueRaw (commitBuy snap sym u) = totalValueRaw snap := by
  unfold totalValueRaw commitBuy
  simp only
  rw [totalRaw_creditHolding snap.holdings sym u e0 h hp]
  ring

/-- Committing a buy on a priced holding raises that symbol's holding value
by exactly the committed amount. -/
lemma holdingValueOf_commitBuy (snap : PortfolioSnapshot) (sym : String) (u : ℚ)
    (e0 : String × Holding) (h : snap.holdings.find? (fun x => x.1 == sym) = some e0)
    (hp : e0.2.markPrice ≠ 0) :
    holdingValueOf (commitBuy snap sym u) sym = holdingValueOf snap sym + u := by
  unfold holdingValueOf commitBuy
  simp only
  rw [creditHolding_find?_self snap.holdings sym u e0 h, h]
  simp only
  field_simp

/-! Helper lemmas about serialized batch processing. -/

lemma processBatch_nil (reg : List AssetTarget) (capOf : String → Option BotCapConfig)
    (res minN : ℚ) (snap : PortfolioSnapshot) (dep : String → ℚ) :
    processBatch reg capOf res minN snap dep [] = ⟨snap, dep, []⟩ := rfl

/-- A true error skips the request: no decision, no state change. -/
lemma processBatch_cons_error (reg : List AssetTarget) (capOf : String → Option BotCapConfig)
    (res minN : ℚ) (snap : PortfolioSnapshot) (dep : String → ℚ) (req : BuyRequest)
    (rest : List BuyRequest) (err : AllocError)
    (h : evaluate reg req snap (capOf req.botId) (dep req.botId) res minN = .error err) :
    processBatch reg capOf res minN snap dep (req :: rest)
      = processBatch reg capOf res minN snap dep rest := by
  rw [processBatch.eq_2, h]

/-- An allowed head decision commits, and the rest of the batch runs
against the committed snapshot and updated deployed counters. -/
lemma processBatch_cons_allowed (reg : List AssetTarget) (capOf : String → Option BotCapConfig)
    (res minN : ℚ) (snap : PortfolioSnapshot) (dep : String → ℚ) (req : BuyRequest)
    (rest : List BuyRequest) (d : GateDecision)
    (h : evaluate reg req snap (capOf req.botId) (dep req.botId) res minN = .ok d)
    (ha : d.allowed = true) :
    processBatch reg capOf res minN snap dep (req :: rest)
      = ⟨(processBatch reg capOf res minN (commitBuy snap req.assetSymbol d.approvedUsdc)
            (fun b => if b == req.botId then dep b + d.approvedUsdc else dep b) rest).snap,
         (processBatch reg capOf res minN (commitBuy snap req.assetSymbol d.approvedUsdc)
            (fun b => if b == req.botId then dep b + d.approvedUsdc else dep b) rest).deployed,
         d :: (processBatch reg capOf res minN (commitBuy snap req.assetSymbol d.approvedUsdc)
            (fun b => if b == req.botId then dep b + d.approvedUsdc else dep b) rest).decisions⟩ := by
  rw [processBatch.eq_2, h]
  simp [ha]

/-- A blocked head decision is recorded and the state is unchanged. -/
lemma processBatch_cons_blocked (reg : List AssetTarget) (capOf : String → Option BotCapConfig)
    (res minN : ℚ) (snap : PortfolioSnapshot) (dep : String → ℚ) (req : BuyRequest)
    (rest : List BuyRequest) (d : GateDecision)
    (h : evaluate reg req snap (capOf req.botId) (dep req.botId) res minN = .ok d)
    (ha : d.allowed = false) :
    processBatch reg capOf res minN snap dep (req :: rest)
      = ⟨(processBatch reg capOf res minN snap dep rest).snap,
         (processBatch reg capOf res minN snap dep rest).deployed,
         d :: (processBatch reg capOf res minN snap dep rest).decisions⟩ := by
  rw [processBatch.eq_2, h]
  simp [ha]

lemma allowedSum_nil : allowedSum [] = 0 := rfl

lemma allowedSum_cons_true (d : GateDecision) (ds : List GateDecision) (h : d.allowed = true) :
    allowedSum (d :: ds) = d.approvedUsdc + allowedSum ds := by
  simp [allowedSum, List.filter_cons, h]

lemma allowedSum_cons_false (d : GateDecision) (ds : List GateDecision) (h : d.allowed = false) :
    allowedSum (d :: ds) = allowedSum ds := by
  simp [allowedSum, List.filter_cons, h]

/-- Two holdings lists with the same symbols and prices resolve the same
symbols, to entries of equal symbol and price. -/
lemma find?_price_of_shape (hs hs' : List (String × Holding))
    (hshape : hs'.map (fun e => (e.1, e.2.markPrice)) = hs.map (fun e => (e.1, e.2.markPrice)))
    (k : String) (f : String × Holding) (h : hs.find? (fun x => x.1 == k) = some f) :
    ∃ f', hs'.find? (fun x => x.1 == k) = some f' ∧
      f'.1 = f.1 ∧ f'.2.markPrice = f.2.markPrice := by
  have hmap := congrArg (List.find? (fun y : String × ℚ => y.1 == k)) hshape
  rw [List.find?_map, List.find?_map] at hmap
  have hmap2 : (hs'.find? (fun x => x.1 == k)).map (fun e => (e.1, e.2.markPrice))
      = (hs.find? (fun x => x.1 == k)).map (fun e => (e.1, e.2.markPrice)) := by
    simpa [Function.comp] using hmap
  rw [h] at hmap2
  cases hf' : hs'.find? (fun x => x.1 == k) with
  | none => rw [hf'] at hmap2; cases hmap2
  | some f' =>
    rw [hf'] at hmap2
    simp only [Option.map_some'] at hmap2
    injection hmap2 with hm
    injection hm with hm1 hm2
    exact ⟨f', rfl, hm1, hm2⟩

/-- The mark-to-market sum of nonnegative holdings is nonnegative. -/
lemma totalRaw_nonneg (hs : List (String × Holding)) (h : ValidHoldings hs) :
    0 ≤ totalRaw hs := by
  unfold totalRaw
  apply List.sum_nonneg
  intro x hx
  rcases List.mem_map.mp hx with ⟨e, he, hxe⟩
  rw [← hxe]
  exact mul_nonneg (h e he).1 (h e he).2

/-- Everything an allowed decision guarantees about the step it is about to
commit: nonnegative size, size within available cash, positive available
cash, positive total value, and the buy fitting under the asset's max-band
value. -/
lemma allowed_step_facts (reg : List AssetTarget) (req : BuyRequest) (snap : PortfolioSnapshot)
    (cap : Option BotCapConfig) (dep res minN : ℚ) (d : GateDecision)
    (hres : 0 ≤ res) (hreq : 0 ≤ req.requestedUsdc)
    (hev : evaluate reg req snap cap dep res minN = .ok d)
    (ha : d.allowed = true) :
    ValidHoldings snap.holdings ∧
    0 ≤ d.approvedUsdc ∧
    d.approvedUsdc ≤ snap.idleCashUsdc - res ∧
    0 < snap.idleCashUsdc - res ∧
    0 < totalValueRaw snap ∧
    ∃ a, lookupAsset reg req.assetSymbol = .ok a ∧
      holdingValueOf snap req.assetSymbol + d.approvedUsdc
        ≤ maxWeightOf a * totalValueRaw snap := by
  obtain ⟨a, tv, hlook, htv, hd⟩ := evaluate_ok_inv reg req snap cap dep res minN d hev
  obtain ⟨hvalid, htveq⟩ := computeTotalValue_ok_inv snap tv htv
  rw [hd] at ha
  obtain ⟨hen, hcw, havail, hcap, hmin⟩ :=
    (gate_allowed_iff a tv req snap cap dep res minN).mp ha
  have happr := gate_allowed_approved a tv req snap cap dep res minN ha
  have htv0 : 0 < tv := by
    have h1 := totalRaw_nonneg snap.holdings hvalid
    rw [htveq]
    unfold totalValueRaw
    have : 0 < snap.idleCashUsdc := lt_of_le_of_lt hres (by linarith)
    linarith
  have hhvlt : holdingValueOf snap req.assetSymbol < maxWeightOf a * tv :=
    (div_lt_iff₀ htv0).mp hcw
  have hhr : headroomUsdc (maxWeightOf a) tv (holdingValueOf snap req.assetSymbol)
      = maxWeightOf a * tv - holdingValueOf snap req.assetSymbol := by
    unfold headroomUsdc
    exact max_eq_right (by linarith)
  have hhr0 : 0 ≤ headroomUsdc (maxWeightOf a) tv (holdingValueOf snap req.assetSymbol) :=
    le_max_left _ _
  have hu0 : 0 ≤ (evalCore a tv req snap cap dep res minN).approvedUsdc := by
    rw [happr]
    exact le_min hreq (le_min hhr0 (le_of_lt havail))
  have huavail : (evalCore a tv req snap cap dep res minN).approvedUsdc
      ≤ snap.idleCashUsdc - res := by
    rw [happr]
    exact le_trans (min_le_right _ _) (min_le_right _ _)
  have huhr : (evalCore a tv req snap cap dep res minN).approvedUsdc
      ≤ maxWeightOf a * tv - holdingValueOf snap req.assetSymbol := by
    rw [happr, ← hhr]
    exact le_trans (min_le_right _ _) (min_le_left _ _)
  subst hd
  refine ⟨hvalid, hu0, huavail, havail, htveq ▸ htv0, a, hlook, ?_⟩
  rw [← htveq]
  linarith [huhr, hhvlt]

/-- The batch invariant: processing any request list serially preserves
holding validity, keeps idle cash nonnegative, accounts cash exactly
against the allowed decisions' sum, preserves the symbols and prices of the
holdings, and never lets the committed sum exceed the initially available
cash. -/
lemma processBatch_invariant (reg : List AssetTarget) (capOf : String → Option BotCapConfig)
    (res minN : ℚ) (hres : 0 ≤ res) :
    ∀ (reqs : List BuyRequest) (snap : PortfolioSnapshot) (dep : String → ℚ),
      ValidHoldings snap.holdings → ReqsOk reqs snap → 0 ≤ snap.idleCashUsdc →
      ValidHoldings (processBatch reg capOf res minN snap dep reqs).snap.holdings ∧
      0 ≤ (processBatch reg capOf res minN snap dep reqs).snap.idleCashUsdc ∧
      (processBatch reg capOf res minN snap dep reqs).snap.idleCashUsdc
        = snap.idleCashUsdc - allowedSum (processBatch reg capOf res minN snap dep reqs).decisions ∧
      (processBatch reg capOf res minN snap dep reqs).snap.holdings.map
          (fun e => (e.1, e.2.markPrice))
        = snap.holdings.map (fun e => (e.1, e.2.markPrice)) ∧
      allowedSum (processBatch reg capOf res minN snap dep reqs).decisions
        ≤ max 0 (snap.idleCashUsdc - res) ∧
      ((∃ d ∈ (processBatch reg capOf res minN snap dep reqs).decisions, d.allowed = true) →
        allowedSum (processBatch reg capOf res minN snap dep reqs).decisions
          ≤ snap.idleCashUsdc - res) := by
  intro reqs
  induction reqs with
  | nil =>
    intro snap dep hvalid hreqs hidle
    rw [processBatch_nil]
    refine ⟨hvalid, hidle, by simp [allowedSum_nil], rfl, by simp [allowedSum_nil], ?_⟩
    rintro ⟨d, hd, -⟩
    cases hd
  | cons req rest ih =>
    intro snap dep hvalid hreqs hidle
    have hreq0 := (hreqs req (List.mem_cons_self req rest)).1
    have hreqs_rest : ReqsOk rest snap := fun r hr => hreqs r (List.mem_cons_of_mem _ hr)
    cases hev : evaluate reg req snap (capOf req.botId) (dep req.botId) res minN with
    | error err =>
      rw [processBatch_cons_error reg capOf res minN snap dep req rest err hev]
      exact ih snap dep hvalid hreqs_rest hidle
    | ok d =>
      by_cases ha : d.allowed = true
      · rw [processBatch_cons_allowed reg capOf res minN snap dep req rest d hev ha]
        obtain ⟨-, hu0, huav, havail, -, -⟩ :=
          allowed_step_facts reg req snap (capOf req.botId) (dep req.botId) res minN d
            hres hreq0 hev ha
        have hvalid' : ValidHoldings (commitBuy snap req.assetSymbol d.approvedUsdc).holdings :=
          ValidHoldings_credit _ _ _ hvalid hu0
        have hshape' : (commitBuy snap req.assetSymbol d.approvedUsdc).holdings.map
              (fun e => (e.1, e.2.markPrice))
            = snap.holdings.map (fun e => (e.1, e.2.markPrice)) :=
          creditHolding_shape _ _ _
        have hreqs' : ReqsOk rest (commitBuy snap req.assetSymbol d.approvedUsdc) := by
          intro r hr
          refine ⟨(hreqs_rest r hr).1, ?_⟩
          obtain ⟨f, hf, hfp⟩ := (hreqs_rest r hr).2
          obtain ⟨f', hf', -, hf2⟩ :=
            find?_price_of_shape snap.holdings _ hshape' r.assetSymbol f hf
          exact ⟨f', hf', by rw [hf2]; exact hfp⟩
        have hidle' : (commitBuy snap req.assetSymbol d.approvedUsdc).idleCashUsdc
            = snap.idleCashUsdc - d.approvedUsdc := rfl
        have hidle'0 : 0 ≤ (commitBuy snap req.assetSymbol d.approvedUsdc).idleCashUsdc := by
          rw [hidle']
          linarith
        obtain ⟨c1, c2, c3, c4, c5, c6⟩ :=
          ih (commitBuy snap req.assetSymbol d.approvedUsdc)
            (fun b => if b == req.botId then dep b + d.approvedUsdc else dep b)
            hvalid' hreqs' hidle'0
        have hsum : allowedSum (d :: (processBatch reg capOf res minN
              (commitBuy snap req.assetSymbol d.approvedUsdc)
              (fun b => if b == req.botId then dep b + d.approvedUsdc else dep b)
              rest).decisions)
            = d.approvedUsdc + allowedSum ((processBatch reg capOf res minN
              (commitBuy snap req.assetSymbol d.approvedUsdc)
              (fun b => if b == req.botId then dep b + d.approvedUsdc else dep b)
              rest).decisions) :=
          allowedSum_cons_true d _ ha
        have hrest_bound : allowedSum ((processBatch reg capOf res minN
              (commitBuy snap req.assetSymbol d.approvedUsdc)
              (fun b => if b == req.botId then dep b + d.approvedUsdc else dep b)
              rest).decisions)
            ≤ snap.idleCashUsdc - d.approvedUsdc - res := by
          have hmax : max (0 : ℚ) ((commitBuy snap req.assetSymbol d.approvedUsdc).idleCashUsdc - res)
              = (commitBuy snap req.assetSymbol d.approvedUsdc).idleCashUsdc - res := by
            apply max_eq_right
            rw [hidle']
            linarith
          rw [hmax, hidle'] at c5
          linarith
      -- assemble the six conjuncts
        refine ⟨c1, c2, ?_, c4.trans hshape', ?_, ?_⟩
        · rw [hsum, c3, hidle']
          ring
        · rw [hsum]
          refine le_trans ?_ (le_max_right 0 (snap.idleCashUsdc - res))
          linarith [hrest_bound]
        · intro _
          rw [hsum]
          linarith [hrest_bound]
      · have ha' : d.allowed = false := by
          cases hb : d.allowed
          · rfl
          · exact absurd hb ha
        rw [processBatch_cons_blocked reg capOf res minN snap dep req rest d hev ha']
        obtain ⟨c1, c2, c3, c4, c5, c6⟩ := ih snap dep hvalid hreqs_rest hidle
        refine ⟨c1, c2, ?_, c4, ?_, ?_⟩
        · rw [allowedSum_cons_false d _ ha', c3]
        · rw [allowedSum_cons_false d _ ha']
          exact c5
        · intro hex
          rw [allowedSum_cons_false d _ ha']
          apply c6
          obtain ⟨d', hd', hall⟩ := hex
          rcases List.mem_cons.mp hd' with h | h
          · rw [h] at hall
            rw [hall] at ha'
            cases ha'
          · exact ⟨d', h, hall⟩

/-- C1: over any serialized sequence of committed approved buys, no commit
makes idle cash negative; no single commit pushes the bought asset's current
weight strictly above its max weight (proved without even needing the
minimum-tradable-unit exception); and the sum of the approved amounts
committed in a batch never exceeds `idleCashUsdc − safetyReserveUsdc`
measured before the first commit of the batch. -/
theorem C1_capital_safety_invariants (reg : List AssetTarget)
    (capOf : String → Option BotCapConfig) (res minN : ℚ)
    (snap0 : PortfolioSnapshot) (dep0 : String → ℚ) (reqs : List BuyRequest)
    (hres : 0 ≤ res) (hidle : 0 ≤ snap0.idleCashUsdc)
    (hvalid : ValidHoldings snap0.holdings) (hreqs : ReqsOk reqs snap0) :
    (∀ pre suf, reqs = pre ++ suf →
       0 ≤ (processBatch reg capOf res minN snap0 dep0 pre).snap.idleCashUsdc) ∧
    (∀ pre r suf, reqs = pre ++ r :: suf →
       ∀ a d, lookupAsset reg r.assetSymbol = .ok a →
         evaluate reg r (processBatch reg capOf res minN snap0 dep0 pre).snap
             (capOf r.botId)
             ((processBatch reg capOf res minN snap0 dep0 pre).deployed r.botId)
             res minN = .ok d →
         d.allowed = true →
         holdingValueOf (commitBuy (processBatch reg capOf res minN snap0 dep0 pre).snap
               r.assetSymbol d.approvedUsdc) r.assetSymbol
             / totalValueRaw (commitBuy (processBatch reg capOf res minN snap0 dep0 pre).snap
               r.assetSymbol d.approvedUsdc)
           ≤ maxWeightOf a) ∧
    ((∃ d ∈ (processBatch reg capOf res minN snap0 dep0 reqs).decisions, d.allowed = true) →
       allowedSum (processBatch reg capOf res minN snap0 dep0 reqs).decisions
         ≤ snap0.idleCashUsdc - res) := by
  refine ⟨?_, ?_, ?_⟩
  · intro pre suf hsplit
    have hpre : ReqsOk pre snap0 := by
      intro r hr
      exact hreqs r (by rw [hsplit]; exact List.mem_append_left _ hr)
    exact (processBatch_invariant reg capOf res minN hres pre snap0 dep0 hvalid hpre hidle).2.1
  · intro pre r suf hsplit a d hlook hev ha
    have hpre : ReqsOk pre snap0 := by
      intro x hx
      exact hreqs x (by rw [hsplit]; exact List.mem_append_left _ hx)
    obtain ⟨i1, i2, i3, i4, i5, i6⟩ :=
      processBatch_invariant reg capOf res minN hres pre snap0 dep0 hvalid hpre hidle
    have hrmem : r ∈ reqs := by
      rw [hsplit]
      exact List.mem_append_right _ (List.mem_cons_self r suf)
    have hr0 := (hreqs r hrmem).1
    obtain ⟨f, hf, hfp⟩ := (hreqs r hrmem).2
    obtain ⟨f', hf', -, hf2⟩ := find?_price_of_shape snap0.holdings _ i4 r.assetSymbol f hf
    have hfp' : 0 < f'.2.markPrice := by
      rw [hf2]
      exact hfp
    obtain ⟨hvalidSt, hu0, huav, havail, htv0, a', hlook', hfit⟩ :=
      allowed_step_facts reg r (processBatch reg capOf res minN snap0 dep0 pre).snap
        (capOf r.botId) ((processBatch reg capOf res minN snap0 dep0 pre).deployed r.botId)
        res minN d hres hr0 hev ha
    have haa : a' = a := by
      rw [hlook] at hlook'
      injection hlook' with h'
      exact h'.symm
    rw [totalValueRaw_commitBuy _ _ _ f' hf' (ne_of_gt hfp'),
      holdingValueOf_commitBuy _ _ _ f' hf' (ne_of_gt hfp')]
    rw [div_le_iff₀ htv0]
    rw [haa] at hfit
    linarith
  · intro hex
    exact (processBatch_invariant reg capOf res minN hres reqs snap0 dep0
      hvalid hreqs hidle).2.2.2.2.2 hex

/-- Witness for C1 at the scenario-2 fixture: one $500 headroom-filling
buy against $6,000 idle cash and a $50 reserve; the committed sum respects
the available cash measured before the batch. -/
theorem C1_capital_safety_invariants_witness :
    allowedSum (processBatch demoRegistry (fun _ => none) 50 10 scenario2Snap (fun _ => 0)
        [headroomReqA]).decisions ≤ scenario2Snap.idleCashUsdc - 50 := by
  have h := C1_capital_safety_invariants demoRegistry (fun _ => none) 50 10 scenario2Snap
    (fun _ => 0) [headroomReqA] (by norm_num) (by norm_num [scenario2Snap])
    (by unfold ValidHoldings; norm_num [scenario2Snap])
    (by
      unfold ReqsOk
      intro r hr
      simp only [List.mem_singleton] at hr
      subst hr
      refine ⟨by norm_num [headroomReqA], ("BTC", ⟨1, 4000⟩), ?_, by norm_num⟩
      norm_num [scenario2Snap, headroomReqA])
  apply h.2.2
  have hdec : (processBatch demoRegistry (fun _ => none) 50 10 scenario2Snap (fun _ => 0)
      [headroomReqA]).decisions
      = [{ allowed := true, approvedUsdc := 500, reason := .ALLOWED, currentWeight := 2/5,
           targetWeight := 2/5, maxWeight := 9/20, headroomUsdc := 500 }] := by
    norm_num [processBatch, evaluate, evalCore, lookupAsset, computeTotalValue, holdingValueOf,
      maxWeightOf, headroomUsdc, sizeOrderRaw, mkBlocked, botCapExceeded, demoRegistry,
      scenario2Snap, headroomReqA]
  rw [hdec]
  exact ⟨_, List.mem_singleton.mpr rfl, rfl⟩

/-- C6: the Valuation Model returns idle cash plus the mark-to-market sum
over all holdings whenever every mark price and quantity is nonnegative,
and fails with `InvalidSnapshot` exactly when some mark price or quantity
is negative.  (It is a pure function of the snapshot by construction.) -/
theorem C6_compute_total_value (snap : PortfolioSnapshot) :
    ((∀ e ∈ snap.holdings, 0 ≤ e.2.markPrice ∧ 0 ≤ e.2.quantity) →
      computeTotalValue snap
        = .ok (snap.idleCashUsdc
            + (snap.holdings.map (fun e => e.2.quantity * e.2.markPrice)).sum)) ∧
    (computeTotalValue snap = .error .InvalidSnapshot ↔
      ∃ e ∈ snap.holdings, e.2.markPrice < 0 ∨ e.2.quantity < 0) := by
  constructor
  · intro h
    exact computeTotalValue_ok_of_valid snap (fun e he => ⟨(h e he).2, (h e he).1⟩)
  · exact computeTotalValue_error_iff snap

/-- Witness for C6 at the scenario-2 snapshot: $6,000 idle plus one unit of
BTC at $4,000 totals $10,000. -/
theorem C6_compute_total_value_witness :
    computeTotalValue scenario2Snap
      = .ok (scenario2Snap.idleCashUsdc
          + (scenario2Snap.holdings.map (fun e => e.2.quantity * e.2.markPrice)).sum) :=
  (C6_compute_total_value scenario2Snap).1 (by norm_num [scenario2Snap])

/-- C7: an unregistered symbol makes the registry lookup — and the whole
gate evaluation — fail with `UnknownAsset`, raised to the caller and never
returned as a `BLOCKED_*` decision; concretely `"DOGE"` against the demo
registry raises `UnknownAsset`; and the code's `getAssetsBySymbols` can only
return assets of the configured list, so no unregistered asset is ever
treated as enabled. -/
theorem C7_unknown_asset_fail_closed :
    (∀ (reg : List AssetTarget) (sym : String),
       (∀ a ∈ reg, a.symbol ≠ sym) → getBand reg sym = .error .UnknownAsset) ∧
    (∀ (reg : List AssetTarget) (req : BuyRequest) (snap : PortfolioSnapshot)
       (cap : Option BotCapConfig) (dep res minN : ℚ),
       (∀ a ∈ reg, a.symbol ≠ req.assetSymbol) →
       evaluate reg req snap cap dep res minN = .error .UnknownAsset) ∧
    getBand demoRegistry "DOGE" = .error .UnknownAsset ∧
    (∀ (all : List AssetConfig) (syms : List String) (a : AssetConfig),
       a ∈ getAssetsBySymbols all syms → a ∈ all) := by
  refine ⟨?_, ?_, ?_, ?_⟩
  · intro reg sym h
    unfold getBand
    rw [lookupAsset_error_of_not_mem reg sym h]
  · intro reg req snap cap dep res minN h
    unfold evaluate
    rw [lookupAsset_error_of_not_mem reg req.assetSymbol h]
  · rfl
  · intro all syms a ha
    exact List.mem_of_mem_filter ha

/-- Witness for C7: the demo registry registers only BTC, so the `"DOGE"`
lookup raises `UnknownAsset`. -/
theorem C7_unknown_asset_fail_closed_witness :
    getBand demoRegistry "DOGE" = .error .UnknownAsset :=
  C7_unknown_asset_fail_closed.1 demoRegistry "DOGE"
    (by
      intro a ha
      simp only [demoRegistry, List.mem_singleton] at ha
      subst ha
      decide)

/-- C2: every allowed decision's approved amount is exactly
`min(requestedUsdc, headroomUsdc, availableCash)` with
`headroomUsdc = max(0, maxWeight × totalValue − currentHoldingValue)`, so it
never exceeds any of the three inputs; and on the scenario-2 instance
(target 0.40, band 0.05, total $10,000, holding $4,000, request $200) the
gate allows with approved $200. -/
theorem C2_sizer_min_formula :
    (∀ (reg : List AssetTarget) (req : BuyRequest) (snap : PortfolioSnapshot)
       (cap : Option BotCapConfig) (dep res minN : ℚ) (a : AssetTarget) (tv : ℚ)
       (d : GateDecision),
       lookupAsset reg req.assetSymbol = .ok a →
       computeTotalValue snap = .ok tv →
       evaluate reg req snap cap dep res minN = .ok d →
       d.allowed = true →
       d.approvedUsdc = min req.requestedUsdc
           (min (headroomUsdc (maxWeightOf a) tv (holdingValueOf snap req.assetSymbol))
                (snap.idleCashUsdc - res)) ∧
       d.approvedUsdc ≤ req.requestedUsdc ∧
       d.approvedUsdc ≤ headroomUsdc (maxWeightOf a) tv (holdingValueOf snap req.assetSymbol) ∧
       d.approvedUsdc ≤ snap.idleCashUsdc - res ∧
       headroomUsdc (maxWeightOf a) tv (holdingValueOf snap req.assetSymbol)
         = max 0 (maxWeightOf a * tv - holdingValueOf snap req.assetSymbol)) ∧
    evaluate demoRegistry scenario2Req scenario2Snap none 0 50 10
      = .ok { allowed := true, approvedUsdc := 200, reason := .ALLOWED, currentWeight := 2/5,
              targetWeight := 2/5, maxWeight := 9/20, headroomUsdc := 500 } := by
  constructor
  · intro reg req snap cap dep res minN a tv d hlook htv hev ha
    rw [evaluate_ok reg req snap cap dep res minN a tv hlook htv] at hev
    injection hev with hd
    subst hd
    have happr := gate_allowed_approved a tv req snap cap dep res minN ha
    unfold sizeOrderRaw at happr
    refine ⟨happr, ?_, ?_, ?_, rfl⟩
    · rw [happr]
      exact min_le_left _ _
    · rw [happr]
      exact le_trans (min_le_right _ _) (min_le_left _ _)
    · rw [happr]
      exact le_trans (min_le_right _ _) (min_le_right _ _)
  · norm_num [evaluate, evalCore, lookupAsset, computeTotalValue, holdingValueOf, maxWeightOf,
      headroomUsdc, sizeOrderRaw, mkBlocked, botCapExceeded, demoRegistry, scenario2Snap,
      scenario2Req]

/-- Witness for C2 at scenario 2: the $200 approval is within all three of
its caps. -/
theorem C2_sizer_min_formula_witness :
    ({ allowed := true, approvedUsdc := 200, reason := .ALLOWED, currentWeight := 2/5,
       targetWeight := 2/5, maxWeight := 9/20, headroomUsdc := 500 } : GateDecision).approvedUsdc
      ≤ scenario2Req.requestedUsdc := by
  have h := C2_sizer_min_formula.1 demoRegistry scenario2Req scenario2Snap none 0 50 10
    { symbol := "BTC", targetWeight := 2/5, bandWidth := 1/20, enabled := true } 10000
    { allowed := true, approvedUsdc := 200, reason := .ALLOWED, currentWeight := 2/5,
      targetWeight := 2/5, maxWeight := 9/20, headroomUsdc := 500 }
    rfl (by norm_num [computeTotalValue, scenario2Snap]) C2_sizer_min_formula.2 rfl
  exact h.2.1

/-- Counterexample to C4's concrete instance: with target 0.40 and band
0.05 the max weight is 0.45, so a $4,400 holding of a $10,000 portfolio
(current weight 0.44) is strictly under the band and the gate ALLOWS the
buy — it does not return `BLOCKED_OVER_BAND` as the claim's scenario
asserts (0.44 is not equal to the max weight). -/
theorem C4_counterexample :
    evaluate demoRegistry scenario1Req scenario1Snap none 0 50 10
      = .ok { allowed := true, approvedUsdc := 50, reason := .ALLOWED, currentWeight := 11/25,
              targetWeight := 2/5, maxWeight := 9/20, headroomUsdc := 100 } ∧
    Reason.ALLOWED ≠ Reason.BLOCKED_OVER_BAND ∧
    (11 : ℚ)/25 < 9/20 := by
  refine ⟨?_, by decide, by norm_num⟩
  norm_num [evaluate, evalCore, lookupAsset, computeTotalValue, holdingValueOf, maxWeightOf,
    headroomUsdc, sizeOrderRaw, mkBlocked, botCapExceeded, demoRegistry, scenario1Snap,
    scenario1Req]

/-- C4 (amended): the band check is strict — a buy is permitted only when
the current weight is strictly below the max weight, and a registered,
enabled asset whose current weight is at (or above) the max weight is
blocked with `BLOCKED_OVER_BAND`; in the scenario-1 setup the holding must
be $4,500 (current weight 0.45 = maxWeight) for the gate to return
`BLOCKED_OVER_BAND`. -/
theorem C4_strict_band_check :
    (∀ (reg : List AssetTarget) (req : BuyRequest) (snap : PortfolioSnapshot)
       (cap : Option BotCapConfig) (dep res minN : ℚ) (d : GateDecision),
       evaluate reg req snap cap dep res minN = .ok d →
       d.allowed = true →
       d.currentWeight < d.maxWeight) ∧
    (∀ (reg : List AssetTarget) (req : BuyRequest) (snap : PortfolioSnapshot)
       (cap : Option BotCapConfig) (dep res minN : ℚ) (a : AssetTarget) (tv : ℚ),
       lookupAsset reg req.assetSymbol = .ok a →
       computeTotalValue snap = .ok tv →
       a.enabled = true →
       maxWeightOf a ≤ holdingValueOf snap req.assetSymbol / tv →
       ∃ d, evaluate reg req snap cap dep res minN = .ok d ∧
         d.allowed = false ∧ d.approvedUsdc = 0 ∧ d.reason = .BLOCKED_OVER_BAND) ∧
    evaluate demoRegistry scenario1Req scenario1AtMaxSnap none 0 50 10
      = .ok (mkBlocked .BLOCKED_OVER_BAND (9/20) (2/5) (9/20) 0) := by
  refine ⟨?_, ?_, ?_⟩
  · intro reg req snap cap dep res minN d hev ha
    obtain ⟨a, tv, hlook, htv, hd⟩ := evaluate_ok_inv reg req snap cap dep res minN d hev
    subst hd
    obtain ⟨-, hcw, -, -, -⟩ := (gate_allowed_iff a tv req snap cap dep res minN).mp ha
    obtain ⟨h1, -, h3, -⟩ := gate_fields a tv req snap cap dep res minN
    rw [h1, h3]
    exact hcw
  · intro reg req snap cap dep res minN a tv hlook htv hen hge
    refine ⟨evalCore a tv req snap cap dep res minN,
      evaluate_ok reg req snap cap dep res minN a tv hlook htv, ?_, ?_, ?_⟩
    · cases hb : (evalCore a tv req snap cap dep res minN).allowed
      · rfl
      · obtain ⟨-, hcw, -, -, -⟩ := (gate_allowed_iff a tv req snap cap dep res minN).mp hb
        exact absurd hcw (not_lt.mpr hge)
    · apply gate_blocked_approved_zero
      cases hb : (evalCore a tv req snap cap dep res minN).allowed
      · rfl
      · obtain ⟨-, hcw, -, -, -⟩ := (gate_allowed_iff a tv req snap cap dep res minN).mp hb
        exact absurd hcw (not_lt.mpr hge)
    · exact (gate_reason_over_band_iff a tv req snap cap dep res minN).mpr ⟨hen, hge⟩
  · norm_num [evaluate, evalCore, lookupAsset, computeTotalValue, holdingValueOf, maxWeightOf,
      headroomUsdc, sizeOrderRaw, mkBlocked, botCapExceeded, demoRegistry, scenario1AtMaxSnap,
      scenario1Req]

/-- Witness for C4 (amended) at the $4,500-holding instance: the asset sits
exactly at the max weight 0.45 and is blocked with `BLOCKED_OVER_BAND`. -/
theorem C4_strict_band_check_witness :
    ∃ d, evaluate demoRegistry scenario1Req scenario1AtMaxSnap none 0 50 10 = .ok d ∧
      d.allowed = false ∧ d.approvedUsdc = 0 ∧ d.reason = .BLOCKED_OVER_BAND := by
  apply C4_strict_band_check.2.1 demoRegistry scenario1Req scenario1AtMaxSnap none 0 50 10
    { symbol := "BTC", targetWeight := 2/5, bandWidth := 1/20, enabled := true } 10000
  · rfl
  · norm_num [computeTotalValue, scenario1AtMaxSnap]
  · rfl
  · norm_num [maxWeightOf, holdingValueOf, scenario1AtMaxSnap, scenario1Req]

/-- Counterexample to C5: a $5 request against the scenario-2 snapshot with
a $10 minimum tradable notional passes all four named conditions (asset
registered and enabled, weight 0.40 strictly under the 0.45 band, available
cash $5,950 over the reserve, no bot cap), yet the gate returns
`allowed = false` with reason `BLOCKED_BELOW_MIN_SIZE` — not `allowed = true`
with the sizer's result, as the claim states for the all-conditions-pass
case. -/
theorem C5_counterexample :
    evaluate demoRegistry dustReq scenario2Snap none 0 50 10
      = .ok (mkBlocked .BLOCKED_BELOW_MIN_SIZE (2/5) (2/5) (9/20) 500) ∧
    lookupAsset demoRegistry dustReq.assetSymbol
      = .ok { symbol := "BTC", targetWeight := 2/5, bandWidth := 1/20, enabled := true } ∧
    (2 : ℚ)/5 < 9/20 ∧
    (0 : ℚ) < scenario2Snap.idleCashUsdc - 50 ∧
    botCapExceeded none 0 dustReq.requestedUsdc 10000 = false ∧
    (mkBlocked .BLOCKED_BELOW_MIN_SIZE (2/5) (2/5) (9/20) 500).allowed = false := by
  refine ⟨?_, rfl, by norm_num, by norm_num [scenario2Snap], rfl, rfl⟩
  norm_num [evaluate, evalCore, lookupAsset, computeTotalValue, holdingValueOf, maxWeightOf,
    headroomUsdc, sizeOrderRaw, mkBlocked, botCapExceeded, demoRegistry, scenario2Snap, dustReq]

/-- C5 (amended): on the success path of the lookup and the valuation, the
gate checks its four conditions in order (enabled; weight strictly under
max band; available cash strictly positive after the reserve; bot cap),
short-circuits on the first failure with that condition's reason and
`allowed = false, approvedUsdc = 0`; when all four pass it additionally
requires the sized amount to reach the platform's minimum tradable
notional — below it the decision is `BLOCKED_BELOW_MIN_SIZE` — and only
then returns `allowed = true` with the sizer's result. -/
theorem C5_gate_ordered_conditions (reg : List AssetTarget) (req : BuyRequest)
    (snap : PortfolioSnapshot) (cap : Option BotCapConfig) (dep res minN : ℚ)
    (a : AssetTarget) (tv : ℚ)
    (hlook : lookupAsset reg req.assetSymbol = .ok a)
    (htv : computeTotalValue snap = .ok tv) :
    ∃ d, evaluate reg req snap cap dep res minN = .ok d ∧
      (d.allowed = false → d.approvedUsdc = 0) ∧
      (d.reason = .BLOCKED_ASSET_DISABLED ↔ a.enabled = false) ∧
      (d.reason = .BLOCKED_OVER_BAND ↔
        a.enabled = true ∧ maxWeightOf a ≤ holdingValueOf snap req.assetSymbol / tv) ∧
      (d.reason = .BLOCKED_RESERVE ↔
        a.enabled = true ∧ holdingValueOf snap req.assetSymbol / tv < maxWeightOf a ∧
        snap.idleCashUsdc - res ≤ 0) ∧
      (d.reason = .BLOCKED_BOT_CAP ↔
        a.enabled = true ∧ holdingValueOf snap req.assetSymbol / tv < maxWeightOf a ∧
        0 < snap.idleCashUsdc - res ∧
        botCapExceeded cap dep req.requestedUsdc tv = true) ∧
      (d.reason = .BLOCKED_BELOW_MIN_SIZE ↔
        a.enabled = true ∧ holdingValueOf snap req.assetSymbol / tv < maxWeightOf a ∧
        0 < snap.idleCashUsdc - res ∧
        botCapExceeded cap dep req.requestedUsdc tv = false ∧
        sizeOrderRaw req.requestedUsdc
            (headroomUsdc (maxWeightOf a) tv (holdingValueOf snap req.assetSymbol))
            (snap.idleCashUsdc - res) < minN) ∧
      (d.allowed = true ↔
        a.enabled = true ∧ holdingValueOf snap req.assetSymbol / tv < maxWeightOf a ∧
        0 < snap.idleCashUsdc - res ∧
        botCapExceeded cap dep req.requestedUsdc tv = false ∧
        minN ≤ sizeOrderRaw req.requestedUsdc
            (headroomUsdc (maxWeightOf a) tv (holdingValueOf snap req.assetSymbol))
            (snap.idleCashUsdc - res)) ∧
      (d.allowed = true →
        d.approvedUsdc = sizeOrderRaw req.requestedUsdc
            (headroomUsdc (maxWeightOf a) tv (holdingValueOf snap req.assetSymbol))
            (snap.idleCashUsdc - res)) ∧
      (d.reason = .ALLOWED ↔ d.allowed = true) :=
  ⟨evalCore a tv req snap cap dep res minN,
    evaluate_ok reg req snap cap dep res minN a tv hlook htv,
    gate_blocked_approved_zero a tv req snap cap dep res minN,
    gate_reason_disabled_iff a tv req snap cap dep res minN,
    gate_reason_over_band_iff a tv req snap cap dep res minN,
    gate_reason_reserve_iff a tv req snap cap dep res minN,
    gate_reason_bot_cap_iff a tv req snap cap dep res minN,
    gate_reason_below_min_iff a tv req snap cap dep res minN,
    gate_allowed_iff a tv req snap cap dep res minN,
    gate_allowed_approved a tv req snap cap dep res minN,
    gate_reason_allowed_iff a tv req snap cap dep res minN⟩

/-- Witness for C5 (amended) at the scenario-2 instance. -/
theorem C5_gate_ordered_conditions_witness :
    ∃ d, evaluate demoRegistry scenario2Req scenario2Snap none 0 50 10 = .ok d ∧
      (d.allowed = false → d.approvedUsdc = 0) := by
  obtain ⟨d, h1, h2, -⟩ := C5_gate_ordered_conditions demoRegistry scenario2Req scenario2Snap
    none 0 50 10 { symbol := "BTC", targetWeight := 2/5, bandWidth := 1/20, enabled := true }
    10000 rfl (by norm_num [computeTotalValue, scenario2Snap])
  exact ⟨d, h1, h2⟩

/-- Counterexample to C8: (i) at the claim's literal example figures —
`availableCash = idleCashUsdc − safetyReserveUsdc = 80 − 50 = $30` — the
reserve condition `availableCash > 0` PASSES and the gate allows the buy,
so "availableCash = $30 with safetyReserve = $50" does not yield
`BLOCKED_RESERVE`; (ii) the blocking is not "regardless of the asset's band
state": with idle cash $30 (available −$20) but the asset over band, the
ordered gate returns `BLOCKED_OVER_BAND`, not `BLOCKED_RESERVE`. -/
theorem C8_counterexample :
    (evaluate demoRegistry smallReq reserveOkSnap none 0 50 5
      = .ok { allowed := true, approvedUsdc := 20, reason := .ALLOWED, currentWeight := 1/9,
              targetWeight := 2/5, maxWeight := 9/20, headroomUsdc := 61/2 } ∧
     reserveOkSnap.idleCashUsdc - 50 = 30 ∧
     Reason.ALLOWED ≠ Reason.BLOCKED_RESERVE) ∧
    (evaluate demoRegistry smallReq reserveShortOverBandSnap none 0 50 5
      = .ok (mkBlocked .BLOCKED_OVER_BAND (460/463) (2/5) (9/20) 0) ∧
     reserveShortOverBandSnap.idleCashUsdc - 50 ≤ 0 ∧
     Reason.BLOCKED_OVER_BAND ≠ Reason.BLOCKED_RESERVE) := by
  constructor
  · refine ⟨?_, by norm_num [reserveOkSnap], by decide⟩
    norm_num [evaluate, evalCore, lookupAsset, computeTotalValue, holdingValueOf, maxWeightOf,
      headroomUsdc, sizeOrderRaw, mkBlocked, botCapExceeded, demoRegistry, reserveOkSnap,
      smallReq]
  · refine ⟨?_, by norm_num [reserveShortOverBandSnap], by decide⟩
    norm_num [evaluate, evalCore, lookupAsset, computeTotalValue, holdingValueOf, maxWeightOf,
      headroomUsdc, sizeOrderRaw, mkBlocked, botCapExceeded, demoRegistry,
      reserveShortOverBandSnap, smallReq]

/-- C8 (amended): a buy that passes the registration/enabled and band
checks is blocked with `BLOCKED_RESERVE` exactly when
`availableCash = idleCashUsdc − safetyReserveUsdc` is not strictly
positive; the scenario-3 figures mean idle cash $30 against a $50 reserve
(availableCash = −$20), which indeed yields `BLOCKED_RESERVE`. -/
theorem C8_reserve_block (reg : List AssetTarget) (req : BuyRequest)
    (snap : PortfolioSnapshot) (cap : Option BotCapConfig) (dep res minN : ℚ)
    (a : AssetTarget) (tv : ℚ)
    (hlook : lookupAsset reg req.assetSymbol = .ok a)
    (htv : computeTotalValue snap = .ok tv)
    (hen : a.enabled = true)
    (hband : holdingValueOf snap req.assetSymbol / tv < maxWeightOf a)
    (hcash : snap.idleCashUsdc - res ≤ 0) :
    (∃ d, evaluate reg req snap cap dep res minN = .ok d ∧
       d.allowed = false ∧ d.approvedUsdc = 0 ∧ d.reason = .BLOCKED_RESERVE) ∧
    evaluate demoRegistry smallReq reserveShortSnap none 0 50 5
      = .ok (mkBlocked .BLOCKED_RESERVE (1/4) (2/5) (9/20) 8) := by
  constructor
  · refine ⟨evalCore a tv req snap cap dep res minN,
      evaluate_ok reg req snap cap dep res minN a tv hlook htv, ?_, ?_, ?_⟩
    · cases hb : (evalCore a tv req snap cap dep res minN).allowed
      · rfl
      · obtain ⟨-, -, hpos, -, -⟩ := (gate_allowed_iff a tv req snap cap dep res minN).mp hb
        linarith
    · apply gate_blocked_approved_zero
      cases hb : (evalCore a tv req snap cap dep res minN).allowed
      · rfl
      · obtain ⟨-, -, hpos, -, -⟩ := (gate_allowed_iff a tv req snap cap dep res minN).mp hb
        linarith
    · exact (gate_reason_reserve_iff a tv req snap cap dep res minN).mpr ⟨hen, hband, hcash⟩
  · norm_num [evaluate, evalCore, lookupAsset, computeTotalValue, holdingValueOf, maxWeightOf,
      headroomUsdc, sizeOrderRaw, mkBlocked, botCapExceeded, demoRegistry, reserveShortSnap,
      smallReq]

/-- Witness for C8 (amended) at the idle-$30 / reserve-$50 instance. -/
theorem C8_reserve_block_witness :
    ∃ d, evaluate demoRegistry smallReq reserveShortSnap none 0 50 5 = .ok d ∧
      d.allowed = false ∧ d.approvedUsdc = 0 ∧ d.reason = .BLOCKED_RESERVE :=
  (C8_reserve_block demoRegistry smallReq reserveShortSnap none 0 50 5
    { symbol := "BTC", targetWeight := 2/5, bandWidth := 1/20, enabled := true } 40
    rfl (by norm_num [computeTotalValue, reserveShortSnap]) rfl
    (by norm_num [holdingValueOf, maxWeightOf, reserveShortSnap, smallReq])
    (by norm_num [reserveShortSnap])).1

/-- C3: the guard resolves requests strictly in acquisition order — an
allowed head decision commits, and every later request is evaluated against
the committed state (total order by construction); on scenario 4's two
simultaneous $500 headroom-filling requests, the first commits the full
$500 and the second, re-evaluated against the committed snapshot (weight
now 0.45 = maxWeight), returns `BLOCKED_OVER_BAND`. -/
theorem C3_guard_serializes_in_order :
    (∀ (reg : List AssetTarget) (capOf : String → Option BotCapConfig) (res minN : ℚ)
       (snap : PortfolioSnapshot) (dep : String → ℚ) (req : BuyRequest)
       (rest : List BuyRequest) (d : GateDecision),
       evaluate reg req snap (capOf req.botId) (dep req.botId) res minN = .ok d →
       d.allowed = true →
       processBatch reg capOf res minN snap dep (req :: rest)
         = ⟨(processBatch reg capOf res minN (commitBuy snap req.assetSymbol d.approvedUsdc)
               (fun b => if b == req.botId then dep b + d.approvedUsdc else dep b) rest).snap,
            (processBatch reg capOf res minN (commitBuy snap req.assetSymbol d.approvedUsdc)
               (fun b => if b == req.botId then dep b + d.approvedUsdc else dep b) rest).deployed,
            d :: (processBatch reg capOf res minN (commitBuy snap req.assetSymbol d.approvedUsdc)
               (fun b => if b == req.botId then dep b + d.approvedUsdc else dep b) rest).decisions⟩) ∧
    (processBatch demoRegistry (fun _ => none) 50 10 scenario2Snap (fun _ => 0)
        [headroomReqA, headroomReqB]).decisions
      = [{ allowed := true, approvedUsdc := 500, reason := .ALLOWED, currentWeight := 2/5,
           targetWeight := 2/5, maxWeight := 9/20, headroomUsdc := 500 },
         mkBlocked .BLOCKED_OVER_BAND (9/20) (2/5) (9/20) 0] ∧
    evaluate demoRegistry headroomReqB (commitBuy scenario2Snap "BTC" 500) none 0 50 10
      = .ok (mkBlocked .BLOCKED_OVER_BAND (9/20) (2/5) (9/20) 0) := by
  refine ⟨processBatch_cons_allowed, ?_, ?_⟩
  · norm_num [processBatch, evaluate, evalCore, lookupAsset, computeTotalValue, holdingValueOf,
      maxWeightOf, headroomUsdc, sizeOrderRaw, mkBlocked, botCapExceeded, commitBuy,
      creditHolding, demoRegistry, scenario2Snap, headroomReqA, headroomReqB]
  · norm_num [evaluate, evalCore, lookupAsset, computeTotalValue, holdingValueOf, maxWeightOf,
      headroomUsdc, sizeOrderRaw, mkBlocked, botCapExceeded, commitBuy, creditHolding,
      demoRegistry, scenario2Snap, headroomReqB]

/-- Witness for C3's serialization conjunct at scenario 4: the two-request
batch unfolds into the first (allowed) decision followed by the batch run
from the committed state. -/
theorem C3_guard_serializes_in_order_witness :
    processBatch demoRegistry (fun _ => none) 50 10 scenario2Snap (fun _ => 0)
        [headroomReqA, headroomReqB]
      = ⟨(processBatch demoRegistry (fun _ => none) 50 10
            (commitBuy scenario2Snap headroomReqA.assetSymbol
              ({ allowed := true, approvedUsdc := 500, reason := .ALLOWED, currentWeight := 2/5,
                 targetWeight := 2/5, maxWeight := 9/20,
                 headroomUsdc := 500 } : GateDecision).approvedUsdc)
            (fun b => if b == headroomReqA.botId then
                (fun _ => (0 : ℚ)) b + (500 : ℚ) else (fun _ => (0 : ℚ)) b)
            [headroomReqB]).snap,
         (processBatch demoRegistry (fun _ => none) 50 10
            (commitBuy scenario2Snap headroomReqA.assetSymbol 500)
            (fun b => if b == headroomReqA.botId then
                (fun _ => (0 : ℚ)) b + (500 : ℚ) else (fun _ => (0 : ℚ)) b)
            [headroomReqB]).deployed,
         { allowed := true, approvedUsdc := 500, reason := .ALLOWED, currentWeight := 2/5,
           targetWeight := 2/5, maxWeight := 9/20, headroomUsdc := 500 }
           :: (processBatch demoRegistry (fun _ => none) 50 10
            (commitBuy scenario2Snap headroomReqA.assetSymbol 500)
            (fun b => if b == headroomReqA.botId then
                (fun _ => (0 : ℚ)) b + (500 : ℚ) else (fun _ => (0 : ℚ)) b)
            [headroomReqB]).decisions⟩ := by
  apply C3_guard_serializes_in_order.1 demoRegistry (fun _ => none) 50 10 scenario2Snap
    (fun _ => 0) headroomReqA [headroomReqB]
  · norm_num [evaluate, evalCore, lookupAsset, computeTotalValue, holdingValueOf, maxWeightOf,
      headroomUsdc, sizeOrderRaw, mkBlocked, botCapExceeded, demoRegistry, scenario2Snap,
      headroomReqA]
  · rfl

/-! Helper lemmas about the logged batch pipeline. -/

lemma processBatchLogged_cons_error (reg : List AssetTarget)
    (capOf : String → Option BotCapConfig) (res minN : ℚ) (logOk : ℕ → Bool)
    (snap : PortfolioSnapshot) (dep : String → ℚ) (n : ℕ) (log : List LogEntry)
    (req : BuyRequest) (rest : List BuyRequest) (err : AllocError)
    (h : evaluate reg req snap (capOf req.botId) (dep req.botId) res minN = .error err) :
    processBatchLogged reg capOf res minN logOk snap dep n log (req :: rest)
      = processBatchLogged reg capOf res minN logOk snap dep n log rest := by
  rw [processBatchLogged.eq_2, h]

lemma processBatchLogged_cons_allowed (reg : List AssetTarget)
    (capOf : String → Option BotCapConfig) (res minN : ℚ) (logOk : ℕ → Bool)
    (snap : PortfolioSnapshot) (dep : String → ℚ) (n : ℕ) (log : List LogEntry)
    (req : BuyRequest) (rest : List BuyRequest) (d : GateDecision)
    (h : evaluate reg req snap (capOf req.botId) (dep req.botId) res minN = .ok d)
    (ha : d.allowed = true) :
    processBatchLogged reg capOf res minN logOk snap dep n log (req :: rest)
      = (⟨(processBatchLogged reg capOf res minN logOk
              (commitBuy snap req.assetSymbol d.approvedUsdc)
              (fun b => if b == req.botId then dep b + d.approvedUsdc else dep b)
              (n + 1) (record (logOk n) log d req) rest).1.snap,
          (processBatchLogged reg capOf res minN logOk
              (commitBuy snap req.assetSymbol d.approvedUsdc)
              (fun b => if b == req.botId then dep b + d.approvedUsdc else dep b)
              (n + 1) (record (logOk n) log d req) rest).1.deployed,
          d :: (processBatchLogged reg capOf res minN logOk
              (commitBuy snap req.assetSymbol d.approvedUsdc)
              (fun b => if b == req.botId then dep b + d.approvedUsdc else dep b)
              (n + 1) (record (logOk n) log d req) rest).1.decisions⟩,
         (processBatchLogged reg capOf res minN logOk
              (commitBuy snap req.assetSymbol d.approvedUsdc)
              (fun b => if b == req.botId then dep b + d.approvedUsdc else dep b)
              (n + 1) (record (logOk n) log d req) rest).2) := by
  rw [processBatchLogged.eq_2, h]
  simp [ha]

lemma processBatchLogged_cons_blocked (reg : List AssetTarget)
    (capOf : String → Option BotCapConfig) (res minN : ℚ) (logOk : ℕ → Bool)
    (snap : PortfolioSnapshot) (dep : String → ℚ) (n : ℕ) (log : List LogEntry)
    (req : BuyRequest) (rest : List BuyRequest) (d : GateDecision)
    (h : evaluate reg req snap (capOf req.botId) (dep req.botId) res minN = .ok d)
    (ha : d.allowed = false) :
    processBatchLogged reg capOf res minN logOk snap dep n log (req :: rest)
      = (⟨(processBatchLogged reg capOf res minN logOk snap dep
              (n + 1) (record (logOk n) log d req) rest).1.snap,
          (processBatchLogged reg capOf res minN logOk snap dep
              (n + 1) (record (logOk n) log d req) rest).1.deployed,
          d :: (processBatchLogged reg capOf res minN logOk snap dep
              (n + 1) (record (logOk n) log d req) rest).1.decisions⟩,
         (processBatchLogged reg capOf res minN logOk snap dep
              (n + 1) (record (logOk n) log d req) rest).2) := by
  rw [processBatchLogged.eq_2, h]
  simp [ha]

/-- The logged pipeline's trading state and decisions agree with the
unlogged pipeline, for every pattern of logging failures. -/
lemma processBatchLogged_state (reg : List AssetTarget)
    (capOf : String → Option BotCapConfig) (res minN : ℚ) (logOk : ℕ → Bool) :
    ∀ (reqs : List BuyRequest) (snap : PortfolioSnapshot) (dep : String → ℚ)
      (n : ℕ) (log : List LogEntry),
      (processBatchLogged reg capOf res minN logOk snap dep n log reqs).1.snap
          = (processBatch reg capOf res minN snap dep reqs).snap ∧
      (processBatchLogged reg capOf res minN logOk snap dep n log reqs).1.deployed
          = (processBatch reg capOf res minN snap dep reqs).deployed ∧
      (processBatchLogged reg capOf res minN logOk snap dep n log reqs).1.decisions
          = (processBatch reg capOf res minN snap dep reqs).decisions := by
  intro reqs
  induction reqs with
  | nil => intro snap dep n log; exact ⟨rfl, rfl, rfl⟩
  | cons req rest ih =>
    intro snap dep n log
    cases hev : evaluate reg req snap (capOf req.botId) (dep req.botId) res minN with
    | error err =>
      rw [processBatchLogged_cons_error reg capOf res minN logOk snap dep n log req rest err hev,
        processBatch_cons_error reg capOf res minN snap dep req rest err hev]
      exact ih snap dep n log
    | ok d =>
      by_cases ha : d.allowed = true
      · rw [processBatchLogged_cons_allowed reg capOf res minN logOk snap dep n log req rest d hev ha,
          processBatch_cons_allowed reg capOf res minN snap dep req rest d hev ha]
        obtain ⟨h1, h2, h3⟩ := ih (commitBuy snap req.assetSymbol d.approvedUsdc)
          (fun b => if b == req.botId then dep b + d.approvedUsdc else dep b)
          (n + 1) (record (logOk n) log d req)
        exact ⟨h1, h2, by rw [h3]⟩
      · have ha' : d.allowed = false := by
          cases hb : d.allowed
          · rfl
          · exact absurd hb ha
        rw [processBatchLogged_cons_blocked reg capOf res minN logOk snap dep n log req rest d hev ha',
          processBatch_cons_blocked reg capOf res minN snap dep req rest d hev ha']
        obtain ⟨h1, h2, h3⟩ := ih snap dep (n + 1) (record (logOk n) log d req)
        exact ⟨h1, h2, by rw [h3]⟩

/-- With logging succeeding, the final log is the initial log followed by
exactly the decisions of the batch, in order, each with its request. -/
lemma processBatchLogged_log (reg : List AssetTarget)
    (capOf : String → Option BotCapConfig) (res minN : ℚ) :
    ∀ (reqs : List BuyRequest) (snap : PortfolioSnapshot) (dep : String → ℚ)
      (n : ℕ) (log : List LogEntry),
      ((processBatchLogged reg capOf res minN (fun _ => true) snap dep n log reqs).2).map
          (fun e => e.decision)
        = log.map (fun e => e.decision)
          ++ (processBatch reg capOf res minN snap dep reqs).decisions ∧
      ∀ e ∈ (processBatchLogged reg capOf res minN (fun _ => true) snap dep n log reqs).2,
        e ∈ log ∨ e.request ∈ reqs := by
  intro reqs
  induction reqs with
  | nil =>
    intro snap dep n log
    refine ⟨by simp [processBatchLogged, processBatch_nil], ?_⟩
    intro e he
    exact Or.inl he
  | cons req rest ih =>
    intro snap dep n log
    cases hev : evaluate reg req snap (capOf req.botId) (dep req.botId) res minN with
    | error err =>
      rw [processBatchLogged_cons_error reg capOf res minN _ snap dep n log req rest err hev,
        processBatch_cons_error reg capOf res minN snap dep req rest err hev]
      obtain ⟨h1, h2⟩ := ih snap dep n log
      refine ⟨h1, fun e he => ?_⟩
      rcases h2 e he with h | h
      · exact Or.inl h
      · exact Or.inr (List.mem_cons_of_mem _ h)
    | ok d =>
      by_cases ha : d.allowed = true
      · rw [processBatchLogged_cons_allowed reg capOf res minN _ snap dep n log req rest d hev ha,
          processBatch_cons_allowed reg capOf res minN snap dep req rest d hev ha]
        obtain ⟨h1, h2⟩ := ih (commitBuy snap req.assetSymbol d.approvedUsdc)
          (fun b => if b == req.botId then dep b + d.approvedUsdc else dep b)
          (n + 1) (record true log d req)
        constructor
        · rw [h1]
          simp [record]
        · intro e he
          rcases h2 e he with h | h
          · unfold record at h
            rw [if_pos rfl] at h
            rcases List.mem_append.mp h with h' | h'
            · exact Or.inl h'
            · simp only [List.mem_singleton] at h'
              subst h'
              exact Or.inr (List.mem_cons_self req rest)
          · exact Or.inr (List.mem_cons_of_mem _ h)
      · have ha' : d.allowed = false := by
          cases hb : d.allowed
          · rfl
          · exact absurd hb ha
        rw [processBatchLogged_cons_blocked reg capOf res minN _ snap dep n log req rest d hev ha',
          processBatch_cons_blocked reg capOf res minN snap dep req rest d hev ha']
        obtain ⟨h1, h2⟩ := ih snap dep (n + 1) (record true log d req)
        constructor
        · rw [h1]
          simp [record]
        · intro e he
          rcases h2 e he with h | h
          · unfold record at h
            rw [if_pos rfl] at h
            rcases List.mem_append.mp h with h' | h'
            · exact Or.inl h'
            · simp only [List.mem_singleton] at h'
              subst h'
              exact Or.inr (List.mem_cons_self req rest)
          · exact Or.inr (List.mem_cons_of_mem _ h)

/-- C9: the Decision Logger records every decision, allowed or blocked,
with its full context (the decision together with its request), appended in
processing order with no silent omission; and logging failures are
swallowed — for every pattern of logging failures the committed snapshot,
the deployed counters and the decisions themselves are exactly those of the
unlogged trading path. -/
theorem C9_decision_logger_total_and_harmless :
    (∀ (reg : List AssetTarget) (capOf : String → Option BotCapConfig) (res minN : ℚ)
       (logOk : ℕ → Bool) (reqs : List BuyRequest) (snap : PortfolioSnapshot)
       (dep : String → ℚ) (n : ℕ) (log : List LogEntry),
       (processBatchLogged reg capOf res minN logOk snap dep n log reqs).1.snap
           = (processBatch reg capOf res minN snap dep reqs).snap ∧
       (processBatchLogged reg capOf res minN logOk snap dep n log reqs).1.deployed
           = (processBatch reg capOf res minN snap dep reqs).deployed ∧
       (processBatchLogged reg capOf res minN logOk snap dep n log reqs).1.decisions
           = (processBatch reg capOf res minN snap dep reqs).decisions) ∧
    (∀ (reg : List AssetTarget) (capOf : String → Option BotCapConfig) (res minN : ℚ)
       (reqs : List BuyRequest) (snap : PortfolioSnapshot) (dep : String → ℚ)
       (n : ℕ) (log : List LogEntry),
       ((processBatchLogged reg capOf res minN (fun _ => true) snap dep n log reqs).2).map
           (fun e => e.decision)
         = log.map (fun e => e.decision)
           ++ (processBatch reg capOf res minN snap dep reqs).decisions ∧
       ∀ e ∈ (processBatchLogged reg capOf res minN (fun _ => true) snap dep n log reqs).2,
         e ∈ log ∨ e.request ∈ reqs) :=
  ⟨fun reg capOf res minN logOk reqs snap dep n log =>
      processBatchLogged_state reg capOf res minN logOk reqs snap dep n log,
   fun reg capOf res minN reqs snap dep n log =>
      processBatchLogged_log reg capOf res minN reqs snap dep n log⟩

/-- Witness for C9 at scenario 4's two-request batch: starting from an
empty log, the recorded log is exactly the two decisions (one allowed, one
blocked) in order. -/
theorem C9_decision_logger_witness :
    ((processBatchLogged demoRegistry (fun _ => none) 50 10 (fun _ => true) scenario2Snap
        (fun _ => 0) 0 [] [headroomReqA, headroomReqB]).2).map (fun e => e.decision)
      = (processBatch demoRegistry (fun _ => none) 50 10 scenario2Snap (fun _ => 0)
          [headroomReqA, headroomReqB]).decisions := by
  have h := (C9_decision_logger_total_and_harmless.2 demoRegistry (fun _ => none) 50 10
    [headroomReqA, headroomReqB] scenario2Snap (fun _ => 0) 0 []).1
  simpa using h

/-! Helper lemmas about the JavaScript-Map lookup used by
`hydrateMultiAssetState`. -/

lemma jsMapGet_some {α : Type} (ps : List (AssetPosition α)) (k : String)
    (p : AssetPosition α) (h : jsMapGet ps k = some p) : p.asset = k ∧ p ∈ ps := by
  unfold jsMapGet at h
  have h1 := List.find?_some h
  have h2 := List.mem_of_find?_eq_some h
  exact ⟨by simpa using h1, List.mem_reverse.mp h2⟩

lemma jsMapGet_none_iff {α : Type} (ps : List (AssetPosition α)) (k : String) :
    jsMapGet ps k = none ↔ ∀ p ∈ ps, p.asset ≠ k := by
  unfold jsMapGet
  rw [List.find?_eq_none]
  constructor
  · intro h p hp
    simpa using h p (List.mem_reverse.mpr hp)
  · intro h p hp
    simpa using h p (List.mem_reverse.mp hp)

/-- C10: hydration takes exactly the fresh initialization's positions, in
its order (one per asset of the fresh state), replacing a position by the
persisted state's position for the same asset symbol when one exists (the
lookup resolves symbols: a hit has the looked-up symbol and comes from the
persisted array, a miss means no persisted position has the symbol);
persisted positions for symbols outside the fresh list are dropped (every
hydrated position's symbol is a fresh symbol); and every other top-level
field present in the persisted state overrides the fresh default. -/
theorem C10_hydrate_multi_asset_state {α β : Type}
    (init : List AssetConfig → MultiAssetState α β)
    (assets : List AssetConfig) (state : PersistedState α β) :
    (hydrateMultiAssetState init assets state).assetPositions
        = (init assets).assetPositions.map
            (fun pos => (jsMapGet (state.assetPositions.getD []) pos.asset).getD pos) ∧
    (hydrateMultiAssetState init assets state).assetPositions.length
        = (init assets).assetPositions.length ∧
    (∀ (k : String) (p : AssetPosition α),
       jsMapGet (state.assetPositions.getD []) k = some p →
       p.asset = k ∧ p ∈ state.assetPositions.getD []) ∧
    (∀ k : String, jsMapGet (state.assetPositions.getD []) k = none ↔
       ∀ p ∈ state.assetPositions.getD [], p.asset ≠ k) ∧
    (∀ q ∈ (hydrateMultiAssetState init assets state).assetPositions,
       q.asset ∈ (init assets).assetPositions.map (fun pos => pos.asset)) ∧
    (∀ k : String, (hydrateMultiAssetState init assets state).fields k
        = match state.fields k with
          | some v => some v
          | none => (init assets).fields k) := by
  refine ⟨rfl, by simp [hydrateMultiAssetState], jsMapGet_some _,
    jsMapGet_none_iff _, ?_, fun k => rfl⟩
  intro q hq
  unfold hydrateMultiAssetState at hq
  simp only [List.mem_map] at hq
  obtain ⟨pos, hpos, hq⟩ := hq
  cases hget : jsMapGet (state.assetPositions.getD []) pos.asset with
  | none =>
    rw [hget] at hq
    simp only [Option.getD_none] at hq
    subst hq
    exact List.mem_map.mpr ⟨pos, hpos, rfl⟩
  | some p =>
    rw [hget] at hq
    simp only [Option.getD_some] at hq
    subst hq
    exact List.mem_map.mpr ⟨pos, hpos, (jsMapGet_some _ _ _ hget).1.symm⟩

/-- Witness for C10 at the demo fixtures: the persisted BTC position is
what the hydration lookup resolves for symbol `"BTC"`, and it indeed comes
from the persisted array with that symbol. -/
theorem C10_hydrate_multi_asset_state_witness :
    (⟨"BTC", 7⟩ : AssetPosition ℕ).asset = "BTC" ∧
    (⟨"BTC", 7⟩ : AssetPosition ℕ) ∈ demoPersisted.assetPositions.getD [] :=
  (C10_hydrate_multi_asset_state demoInit demoAssets demoPersisted).2.2.1 "BTC" ⟨"BTC", 7⟩ rfl

end BtcTrader
